import Mathlib

/-!
Verification of the course/session REST service (cours_controller.py,
session_controller.py) against its natural-language specification.

The service stores its whole state in one JSON document of shape
`{ "cours": [ { "id": ..., "modules": [ { "id": ..., "seances": [...] } ] } ] }`.
We embed JSON values as the inductive `JVal`, Python dicts as association
lists (`Dict`), and each controller function as a pure Lean function from
the loaded document (the result of `load_data`) and the request parameters
to an `Except PyErr ApiRes`:

* Python exceptions that the code can actually raise (`KeyError`,
  `TypeError`, `AttributeError`, `IndexError`, `ValueError`) are modelled
  by the `PyErr` error channel;
* `ApiRes` records the HTTP status, the response body, and — in the field
  `saved` — the document passed to `save_data`, or `none` when the code
  returns without calling `save_data` (so `saved = none` means the stored
  document is unchanged).

In-place mutation of a course (resp. session) found inside the loaded
document is modelled by returning the position of the first match together
with the object, and rebuilding the surrounding lists at exactly that
position, which is what CPython's aliasing semantics produce here.
-/

/-- JSON values, as produced by `json.load`. Numbers are restricted to
integers: every `id` in this service is an integer or a string and no
floating point arithmetic occurs in the core. -/
inductive JVal : Type where
  | null : JVal
  | bool : Bool → JVal
  | int : Int → JVal
  | str : String → JVal
  | arr : List JVal → JVal
  | obj : List (String × JVal) → JVal

mutual
/-- Structural equality of JSON values, modelling Python `==` on the JSON
fragment (for objects our association lists are key-ordered, which is finer
than Python's order-insensitive dict equality; every place the service
compares whole dicts is shown below to be insensitive to the difference). -/
def JVal.beq : JVal → JVal → Bool
  | .null, .null => true
  | .bool a, .bool b => a == b
  | .int a, .int b => a == b
  | .str a, .str b => a == b
  | .arr xs, .arr ys => JVal.beqList xs ys
  | .obj xs, .obj ys => JVal.beqObj xs ys
  | _, _ => false

/-- Elementwise `JVal.beq` on arrays. -/
def JVal.beqList : List JVal → List JVal → Bool
  | [], [] => true
  | x :: xs, y :: ys => JVal.beq x y && JVal.beqList xs ys
  | _, _ => false

/-- Elementwise `JVal.beq` on object fields. -/
def JVal.beqObj : List (String × JVal) → List (String × JVal) → Bool
  | [], [] => true
  | (k1, v1) :: xs, (k2, v2) :: ys => k1 == k2 && JVal.beq v1 v2 && JVal.beqObj xs ys
  | _, _ => false
end

mutual
theorem JVal.eq_of_beq : ∀ a b : JVal, JVal.beq a b = true → a = b
  | .null, .null, _ => rfl
  | .bool a, .bool b, h => by simp only [JVal.beq, beq_iff_eq] at h; rw [h]
  | .int a, .int b, h => by simp only [JVal.beq, beq_iff_eq] at h; rw [h]
  | .str a, .str b, h => by simp only [JVal.beq, beq_iff_eq] at h; rw [h]
  | .arr xs, .arr ys, h => by
      rw [JVal.eqList_of_beqList xs ys (by simpa only [JVal.beq] using h)]
  | .obj xs, .obj ys, h => by
      rw [JVal.eqObj_of_beqObj xs ys (by simpa only [JVal.beq] using h)]
  | .null, .bool _, h => Bool.noConfusion h
  | .null, .int _, h => Bool.noConfusion h
  | .null, .str _, h => Bool.noConfusion h
  | .null, .arr _, h => Bool.noConfusion h
  | .null, .obj _, h => Bool.noConfusion h
  | .bool _, .null, h => Bool.noConfusion h
  | .bool _, .int _, h => Bool.noConfusion h
  | .bool _, .str _, h => Bool.noConfusion h
  | .bool _, .arr _, h => Bool.noConfusion h
  | .bool _, .obj _, h => Bool.noConfusion h
  | .int _, .null, h => Bool.noConfusion h
  | .int _, .bool _, h => Bool.noConfusion h
  | .int _, .str _, h => Bool.noConfusion h
  | .int _, .arr _, h => Bool.noConfusion h
  | .int _, .obj _, h => Bool.noConfusion h
  | .str _, .null, h => Bool.noConfusion h
  | .str _, .bool _, h => Bool.noConfusion h
  | .str _, .int _, h => Bool.noConfusion h
  | .str _, .arr _, h => Bool.noConfusion h
  | .str _, .obj _, h => Bool.noConfusion h
  | .arr _, .null, h => Bool.noConfusion h
  | .arr _, .bool _, h => Bool.noConfusion h
  | .arr _, .int _, h => Bool.noConfusion h
  | .arr _, .str _, h => Bool.noConfusion h
  | .arr _, .obj _, h => Bool.noConfusion h
  | .obj _, .null, h => Bool.noConfusion h
  | .obj _, .bool _, h => Bool.noConfusion h
  | .obj _, .int _, h => Bool.noConfusion h
  | .obj _, .str _, h => Bool.noConfusion h
  | .obj _, .arr _, h => Bool.noConfusion h

theorem JVal.eqList_of_beqList : ∀ xs ys : List JVal, JVal.beqList xs ys = true → xs = ys
  | [], [], _ => rfl
  | x :: xs, y :: ys, h => by
      simp only [JVal.beqList, Bool.and_eq_true] at h
      rw [JVal.eq_of_beq x y h.1, JVal.eqList_of_beqList xs ys h.2]
  | [], _ :: _, h => Bool.noConfusion h
  | _ :: _, [], h => Bool.noConfusion h

theorem JVal.eqObj_of_beqObj : ∀ xs ys : List (String × JVal), JVal.beqObj xs ys = true → xs = ys
  | [], [], _ => rfl
  | (k1, v1) :: xs, (k2, v2) :: ys, h => by
      simp only [JVal.beqObj, Bool.and_eq_true, beq_iff_eq] at h
      rw [h.1.1, JVal.eq_of_beq v1 v2 h.1.2, JVal.eqObj_of_beqObj xs ys h.2]
  | [], _ :: _, h => Bool.noConfusion h
  | _ :: _, [], h => Bool.noConfusion h
end

mutual
theorem JVal.beq_refl : ∀ a : JVal, JVal.beq a a = true
  | .null => rfl
  | .bool a => by simp [JVal.beq]
  | .int a => by simp [JVal.beq]
  | .str a => by simp [JVal.beq]
  | .arr xs => by simpa only [JVal.beq] using JVal.beqList_refl xs
  | .obj xs => by simpa only [JVal.beq] using JVal.beqObj_refl xs

theorem JVal.beqList_refl : ∀ xs : List JVal, JVal.beqList xs xs = true
  | [] => rfl
  | x :: xs => by simp [JVal.beqList, JVal.beq_refl x, JVal.beqList_refl xs]

theorem JVal.beqObj_refl : ∀ xs : List (String × JVal), JVal.beqObj xs xs = true
  | [] => rfl
  | (k, v) :: xs => by simp [JVal.beqObj, JVal.beq_refl v, JVal.beqObj_refl xs]
end

instance : DecidableEq JVal := fun a b =>
  decidable_of_iff (JVal.beq a b = true)
    ⟨JVal.eq_of_beq a b, fun h => h ▸ JVal.beq_refl a⟩

/-- A Python dict whose values are JSON values, as an association list in
insertion order (Python dicts preserve insertion order and have no
duplicate keys; all dicts the service builds or loads from JSON satisfy
key-uniqueness). -/
abbrev Dict := List (String × JVal)

/-- Python `d.get(k)` / `d[k]` lookup: value of the first binding of `k`. -/
def dictGet : Dict → String → Option JVal
  | [], _ => none
  | (k', v) :: rest, k => if k' = k then some v else dictGet rest k

/-- Python `d.get(k, dflt)`. -/
def dictGetD (d : Dict) (k : String) (dflt : JVal) : JVal :=
  (dictGet d k).getD dflt

/-- Python `d[k] = v`: overwrite the binding of `k` in place if present
(keeping its position, as CPython does), else append a new binding at the
end. Since Python dicts never hold a key twice, replacing the first
binding is exact. -/
def dictSet (d : Dict) (k : String) (v : JVal) : Dict :=
  match d with
  | [] => [(k, v)]
  | (k', v') :: rest => if k' = k then (k, v) :: rest else (k', v') :: dictSet rest k v

/-- Python `d.update(patch)`: assign each binding of `patch`, in order,
into `d` (shallow merge). -/
def dictUpdate (d : Dict) (patch : Dict) : Dict :=
  patch.foldl (fun acc kv => dictSet acc kv.1 kv.2) d

/-- Python exceptions the modelled code can raise. -/
inductive PyErr : Type where
  | keyError : String → PyErr
  | typeError : PyErr
  | attrError : PyErr
  | indexError : PyErr
  | valueError : PyErr
deriving DecidableEq

/-- Python subscript `d[k]` on a dict: `KeyError` when the key is absent. -/
def getItem (d : Dict) (k : String) : Except PyErr JVal :=
  match dictGet d k with
  | some v => .ok v
  | none => .error (.keyError k)

/-- Iterating a JSON value as a Python list. Iterating a non-list is
collapsed to an error (in CPython a dict would iterate its keys and a
string its characters, after which the loop bodies of this service fail
with `AttributeError`/`TypeError`; the well-formedness hypotheses of the
theorems below exclude those shapes either way). -/
def iterAsList : JVal → Except PyErr (List JVal)
  | .arr xs => .ok xs
  | _ => .error .typeError

/-- Python truthiness of a JSON value (`if not x`). -/
def JVal.truthy : JVal → Bool
  | .null => false
  | .bool b => b
  | .int n => n != 0
  | .str s => s ≠ ""
  | .arr xs => !xs.isEmpty
  | .obj fs => !fs.isEmpty

/-- Truthiness of `d.get(k)` (default `None`). -/
def truthyGet (d : Dict) (k : String) : Bool :=
  match dictGet d k with
  | none => false
  | some v => v.truthy

/-- Outcome of one controller call: HTTP status, response body, and the
document handed to `save_data` (`none` when `save_data` was not called,
i.e. the stored document is untouched). -/
structure ApiRes : Type where
  status : Nat
  body : JVal
  saved : Option (List Dict)
deriving DecidableEq

/-- Message constant `COURSE_NOT_FOUND` of both controllers. -/
def COURSE_NOT_FOUND : JVal := .obj [("message", .str "Cours non trouvé.")]

/-- Message constant `COURSE_ALREADY_EXISTS` of cours_controller. -/
def COURSE_ALREADY_EXISTS : JVal := .obj [("message", .str "Un cours avec cet ID existe déjà.")]

/-- Message constant `SESSION_NOT_FOUND` of session_controller. -/
def SESSION_NOT_FOUND : JVal := .obj [("message", .str "Séance non trouvée.")]

/-- Message constant `SESSION_ALREADY_EXISTS` of session_controller. -/
def SESSION_ALREADY_EXISTS : JVal := .obj [("message", .str "Une séance avec cet ID existe déjà dans le cours.")]

/-- Storage gateway `load_data` of both controllers. The backing store is
abstracted as `store : Option String` (file contents, or `none` when
`data.json` does not exist) and JSON parsing as `parse : String → Option
JVal` (`none` models `json.JSONDecodeError`). The code catches the decode
error and substitutes the default document, so the return type is `JVal`,
not `Except`: `load_data` is total and never propagates a parse failure. -/
def load_data (store : Option String) (parse : String → Option JVal) : JVal :=
  match store with
  | none => .obj [("cours", .arr [])]
  | some s =>
    match parse s with
    | some v => v
    | none => .obj [("cours", .arr [])]

/-- Embedding of `next((c for c in data['cours'] if c['id'] == course_id), None)`
(`find_course_by_id` in session_controller, and inlined in
cours_controller): first course whose `'id'` equals `course_id`. The
result is returned as the split `(pre, course, suf)` of the course list
around the first match, which carries the position information that
CPython keeps implicitly through aliasing; a course before the match that
lacks `'id'` raises `KeyError` exactly as `c['id']` does. -/
def findCourseSplit : List Dict → JVal → Except PyErr (Option (List Dict × Dict × List Dict))
  | [], _ => .ok none
  | c :: rest, target =>
    match dictGet c "id" with
    | none => .error (.keyError "id")
    | some v =>
      if v = target then .ok (some ([], c, rest))
      else
        match findCourseSplit rest target with
        | .error e => .error e
        | .ok none => .ok none
        | .ok (some (pre, f, suf)) => .ok (some (c :: pre, f, suf))

/-- Embedding of `any(course['id'] == course_data.get('id') for course in data['cours'])`
in `courses_post`: short-circuit scan of the course ids. -/
def existsCourseId : List Dict → JVal → Except PyErr Bool
  | [], _ => .ok false
  | c :: rest, target =>
    match dictGet c "id" with
    | none => .error (.keyError "id")
    | some v => if v = target then .ok true else existsCourseId rest target

/-- Embedding of `courses_post` (cours_controller lines 104-113), applied
to the loaded course list `cours` and the request body `course_data`. -/
def courses_post (cours : List Dict) (course_data : Dict) : Except PyErr ApiRes :=
  match existsCourseId cours (dictGetD course_data "id" .null) with
  | .error e => .error e
  | .ok true => .ok ⟨400, COURSE_ALREADY_EXISTS, none⟩
  | .ok false =>
    .ok ⟨201, .obj [("message", .str "Cours créé avec succès."), ("cours", .obj course_data)],
         some (cours ++ [course_data])⟩

/-- Embedding of `courses_course_id_put` (cours_controller lines 136-146).
The `if not course` test is `none`-or-falsy: a found course is falsy only
when it is the empty dict, which cannot happen since it contains `'id'`,
but the branch is kept for fidelity. `course.update(course_data)` becomes
`dictUpdate`, and the mutated course is written back at its position. -/
def courses_course_id_put (cours : List Dict) (course_id : JVal) (course_data : Dict) :
    Except PyErr ApiRes :=
  match findCourseSplit cours course_id with
  | .error e => .error e
  | .ok none => .ok ⟨404, COURSE_NOT_FOUND, none⟩
  | .ok (some (pre, course, suf)) =>
    if course.isEmpty then .ok ⟨404, COURSE_NOT_FOUND, none⟩
    else
      .ok ⟨200,
           .obj [("message", .str "Cours mis à jour avec succès."),
                 ("cours", .obj (dictUpdate course course_data))],
           some (pre ++ dictUpdate course course_data :: suf)⟩

/-- Python `list.remove(x)`: delete the first element equal to `x`
(`ValueError` when absent — unreachable in `courses_course_id_delete`
since the removed course was found in the list). Our structural `=` is
finer than Python dict `==`, but both notions remove the same element
here: any course equal to the found one has the same `'id'` value, and
the found one is the first course with that id. -/
def pyRemoveFirst : List Dict → Dict → Except PyErr (List Dict)
  | [], _ => .error .valueError
  | x :: rest, c =>
    if x = c then .ok rest
    else
      match pyRemoveFirst rest c with
      | .error e => .error e
      | .ok rest' => .ok (x :: rest')

/-- Embedding of `courses_course_id_delete` (cours_controller lines
155-164): find the first matching course, `data['cours'].remove(course)`,
save. -/
def courses_course_id_delete (cours : List Dict) (course_id : JVal) : Except PyErr ApiRes :=
  match findCourseSplit cours course_id with
  | .error e => .error e
  | .ok none => .ok ⟨404, COURSE_NOT_FOUND, none⟩
  | .ok (some (_, course, _)) =>
    if course.isEmpty then .ok ⟨404, COURSE_NOT_FOUND, none⟩
    else
      match pyRemoveFirst cours course with
      | .error e => .error e
      | .ok cours' => .ok ⟨200, .obj [("message", .str "Cours supprimé avec succès.")], some cours'⟩

/-- Inner loop of `find_session_by_id` (session_controller lines 131-133):
scan the sessions of one module in order, returning the position and body
of the first session whose `'id'` equals `session_id`. A session that is
not an object makes `session['id']` fail; one without `'id'` raises
`KeyError`. -/
def findSessionInSeances : List JVal → JVal → Nat → Except PyErr (Option (Nat × Dict))
  | [], _, _ => .ok none
  | s :: rest, sid, j =>
    match s with
    | .obj sd =>
      match dictGet sd "id" with
      | none => .error (.keyError "id")
      | some v =>
        if v = sid then .ok (some (j, sd))
        else findSessionInSeances rest sid (j + 1)
    | _ => .error .typeError

/-- Outer loop of `find_session_by_id` (session_controller lines 130-134):
iterate modules in order; in each, iterate `module.get('seances', [])`.
Returns module position, session position and session body of the first
match. A module that is not an object makes `module.get` fail
(`AttributeError`). -/
def findSessionInModules : List JVal → JVal → Nat → Except PyErr (Option (Nat × Nat × Dict))
  | [], _, _ => .ok none
  | m :: rest, sid, i =>
    match m with
    | .obj md =>
      match iterAsList (dictGetD md "seances" (.arr [])) with
      | .error e => .error e
      | .ok ss =>
        match findSessionInSeances ss sid 0 with
        | .error e => .error e
        | .ok (some (j, sd)) => .ok (some (i, j, sd))
        | .ok none => findSessionInModules rest sid (i + 1)
    | _ => .error .attrError

/-- Embedding of `find_session_by_id` (session_controller lines 129-134):
first session with the given id across `course.get('modules', [])`, in
module order then session order. The two positions model the in-place
aliasing of the returned session object. -/
def find_session_by_id (course : Dict) (session_id : JVal) :
    Except PyErr (Option (Nat × Nat × Dict)) :=
  match iterAsList (dictGetD course "modules" (.arr [])) with
  | .error e => .error e
  | .ok modules => findSessionInModules modules session_id 0

/-- Truthiness of the value `find_session_by_id` returns (`None` or a
session dict): used by `any(...)` in the create path and by `if not
session` in the update path. -/
def truthySession : Option (Nat × Nat × Dict) → Bool
  | none => false
  | some (_, _, sd) => !sd.isEmpty

/-- Loop of `courses_course_id_sessions_get` (session_controller lines
150-152): `sessions.extend(module.get('seances', []))` over
`course.get('modules', [])`, i.e. concatenation in module order then
session order. -/
def collectSessions : List JVal → Except PyErr (List JVal)
  | [] => .ok []
  | m :: rest =>
    match m with
    | .obj md =>
      match iterAsList (dictGetD md "seances" (.arr [])) with
      | .error e => .error e
      | .ok ss =>
        match collectSessions rest with
        | .error e => .error e
        | .ok tail => .ok (ss ++ tail)
    | _ => .error .attrError

/-- Embedding of `courses_course_id_sessions_get` (session_controller
lines 143-154). Never calls `save_data`. -/
def courses_course_id_sessions_get (cours : List Dict) (course_id : JVal) :
    Except PyErr ApiRes :=
  match findCourseSplit cours course_id with
  | .error e => .error e
  | .ok none => .ok ⟨404, COURSE_NOT_FOUND, none⟩
  | .ok (some (_, course, _)) =>
    if course.isEmpty then .ok ⟨404, COURSE_NOT_FOUND, none⟩
    else
      match iterAsList (dictGetD course "modules" (.arr [])) with
      | .error e => .error e
      | .ok modules =>
        match collectSessions modules with
        | .error e => .error e
        | .ok sessions => .ok ⟨200, .obj [("seances", .arr sessions)], none⟩

/-- Embedding of the generator
`any(find_session_by_id(course, session_data['id']) for module in course['modules'])`
(session_controller line 172), applied to the already-evaluated iterable
`modules`: the loop variable is unused, so the same lookup is re-evaluated
once per module and the scan short-circuits on the first truthy result.
Note `session_data['id']` is only evaluated when the iterable is
non-empty, exactly as in the generator. -/
def anyConflict (course : Dict) (session_data : Dict) : List JVal → Except PyErr Bool
  | [] => .ok false
  | _ :: rest =>
    match getItem session_data "id" with
    | .error e => .error e
    | .ok sid =>
      match find_session_by_id course sid with
      | .error e => .error e
      | .ok r => if truthySession r then .ok true else anyConflict course session_data rest

/-- Module object synthesized by `courses_course_id_sessions_post` when
the course has no (or only falsy) modules (session_controller line 176). -/
def freshModule : Dict :=
  [("id", .str "module_1"), ("titre", .str "Nouveau module"), ("seances", .arr [])]

/-- Embedding of `course['modules'][0]['seances'].append(session_data)`
(session_controller line 178): subscript `'modules'` (`KeyError` if
absent), subscript `[0]` (`IndexError` on an empty list), subscript
`'seances'` on the first module (`KeyError` if absent), append, and
rebuild the course around the mutated first module. -/
def appendToFirstModule (course : Dict) (session_data : Dict) : Except PyErr Dict :=
  match getItem course "modules" with
  | .error e => .error e
  | .ok mv =>
    match mv with
    | .arr [] => .error .indexError
    | .arr (m0 :: rest) =>
      match m0 with
      | .obj m0d =>
        match dictGet m0d "seances" with
        | none => .error (.keyError "seances")
        | some (.arr ss) =>
          .ok (dictSet course "modules"
                (.arr (.obj (dictSet m0d "seances" (.arr (ss ++ [.obj session_data]))) :: rest)))
        | some _ => .error .attrError
      | _ => .error .typeError
    | _ => .error .typeError

/-- Embedding of `courses_course_id_sessions_post` (session_controller
lines 163-180): find the course; evaluate `course['modules']` and run the
conflict generator over it; if `course.get('modules')` is falsy replace it
by a fresh single-module list; append the input to the first module's
`'seances'`; save. -/
def courses_course_id_sessions_post (cours : List Dict) (course_id : JVal)
    (session_data : Dict) : Except PyErr ApiRes :=
  match findCourseSplit cours course_id with
  | .error e => .error e
  | .ok none => .ok ⟨404, COURSE_NOT_FOUND, none⟩
  | .ok (some (pre, course, suf)) =>
    if course.isEmpty then .ok ⟨404, COURSE_NOT_FOUND, none⟩
    else
      match getItem course "modules" with
      | .error e => .error e
      | .ok mv =>
        match iterAsList mv with
        | .error e => .error e
        | .ok modules =>
          match anyConflict course session_data modules with
          | .error e => .error e
          | .ok true => .ok ⟨400, SESSION_ALREADY_EXISTS, none⟩
          | .ok false =>
            let course1 :=
              if truthyGet course "modules" then course
              else dictSet course "modules" (.arr [.obj freshModule])
            match appendToFirstModule course1 session_data with
            | .error e => .error e
            | .ok course2 =>
              .ok ⟨201,
                   .obj [("message", .str "Séance créée avec succès."),
                         ("seance", .obj session_data)],
                   some (pre ++ course2 :: suf)⟩

/-- Rebuild a course after the in-place `session.update(session_data)` of
`courses_course_id_sessions_session_id_put`: the session object sitting at
module position `mi`, session position `si` (where `find_session_by_id`
found it, so `'modules'` and that module's `'seances'` are present arrays)
is replaced by `sd'`; everything else is untouched. This definition is the
pure rendering of CPython's aliasing, not a loop of the source. -/
def listNth (xs : List JVal) (n : Nat) : Option JVal :=
  match xs, n with
  | [], _ => none
  | x :: _, 0 => some x
  | _ :: rest, n + 1 => listNth rest n

def setSessionAt (course : Dict) (mi si : Nat) (sd' : Dict) : Dict :=
  match dictGet course "modules" with
  | some (.arr ms) =>
    match listNth ms mi with
    | some (.obj md) =>
      match dictGet md "seances" with
      | some (.arr ss) =>
        dictSet course "modules"
          (.arr (ms.set mi (.obj (dictSet md "seances" (.arr (ss.set si (.obj sd')))))))
      | _ => course
    | _ => course
  | _ => course

/-- Embedding of `courses_course_id_sessions_session_id_put`
(session_controller lines 190-205): find the course, find the session with
`find_session_by_id`, 404 if either is missing (`if not session` is
`None`-or-falsy, kept for fidelity), then `session.update(session_data)`
and save. -/
def courses_course_id_sessions_session_id_put (cours : List Dict) (course_id session_id : JVal)
    (session_data : Dict) : Except PyErr ApiRes :=
  match findCourseSplit cours course_id with
  | .error e => .error e
  | .ok none => .ok ⟨404, COURSE_NOT_FOUND, none⟩
  | .ok (some (pre, course, suf)) =>
    if course.isEmpty then .ok ⟨404, COURSE_NOT_FOUND, none⟩
    else
      match find_session_by_id course session_id with
      | .error e => .error e
      | .ok none => .ok ⟨404, SESSION_NOT_FOUND, none⟩
      | .ok (some (mi, si, sd)) =>
        if sd.isEmpty then .ok ⟨404, SESSION_NOT_FOUND, none⟩
        else
          .ok ⟨200,
               .obj [("message", .str "Séance mise à jour avec succès."),
                     ("seance", .obj (dictUpdate sd session_data))],
               some (pre ++ setSessionAt course mi si (dictUpdate sd session_data) :: suf)⟩

theorem dictGet_nil (k : String) : dictGet [] k = none := rfl

theorem dictGet_isSome_ne_nil {c : Dict} {k : String} {v : JVal}
    (h : dictGet c k = some v) : c.isEmpty = false := by
  cases c with
  | nil => simp [dictGet] at h
  | cons p rest => rfl

theorem dictGet_not_mem_keys {d : Dict} {k : String}
    (h : k ∉ d.map Prod.fst) : dictGet d k = none := by
  induction d with
  | nil => rfl
  | cons p rest ih =>
    obtain ⟨pk, pv⟩ := p
    simp only [List.map_cons, List.mem_cons, not_or] at h
    simp only [dictGet, if_neg (fun hh : pk = k => h.1 hh.symm)]
    exact ih h.2

theorem dictGet_dictSet (d : Dict) (k k' : String) (v : JVal) :
    dictGet (dictSet d k v) k' = if k' = k then some v else dictGet d k' := by
  induction d with
  | nil =>
    by_cases hkk : k' = k
    · subst hkk; simp [dictSet, dictGet]
    · have hkk2 : ¬k = k' := fun hh => hkk hh.symm
      simp [dictSet, dictGet, hkk, hkk2]
  | cons p rest ih =>
    obtain ⟨pk, pv⟩ := p
    by_cases hpk : pk = k
    · subst hpk
      by_cases hkk : k' = pk
      · subst hkk; simp [dictSet, dictGet]
      · have hkk2 : ¬pk = k' := fun hh => hkk hh.symm
        simp [dictSet, dictGet, hkk, hkk2]
    · by_cases hpk' : pk = k'
      · subst hpk'
        simp [dictSet, dictGet, hpk]
      · simp [dictSet, dictGet, hpk, hpk', ih]

theorem dictGet_dictUpdate (d : Dict) (patch : Dict) (k : String)
    (hnd : (patch.map Prod.fst).Nodup) :
    dictGet (dictUpdate d patch) k =
      match dictGet patch k with
      | some v => some v
      | none => dictGet d k := by
  induction patch generalizing d with
  | nil => simp [dictUpdate, dictGet]
  | cons p rest ih =>
    obtain ⟨pk, pv⟩ := p
    simp only [List.map_cons, List.nodup_cons] at hnd
    have hstep : dictUpdate d ((pk, pv) :: rest) = dictUpdate (dictSet d pk pv) rest := by
      simp [dictUpdate]
    rw [hstep, ih (dictSet d pk pv) hnd.2]
    by_cases hk : pk = k
    · subst hk
      have hrest : dictGet rest pk = none := dictGet_not_mem_keys hnd.1
      rw [hrest]
      simp [dictGet, dictGet_dictSet]
    · simp only [dictGet, if_neg hk]
      cases hr : dictGet rest k with
      | some w => rfl
      | none =>
        rw [dictGet_dictSet, if_neg (fun hh : k = pk => hk hh.symm)]

theorem findCourseSplit_spec :
    ∀ (cours : List Dict) (t : JVal) (pre c suf : _),
    findCourseSplit cours t = .ok (some (pre, c, suf)) →
    cours = pre ++ c :: suf ∧ dictGet c "id" = some t ∧
      ∀ p ∈ pre, ∃ v, dictGet p "id" = some v ∧ v ≠ t := by
  intro cours
  induction cours with
  | nil => intro t pre c suf h; simp [findCourseSplit] at h
  | cons x rest ih =>
    intro t pre c suf h
    cases hx : dictGet x "id" with
    | none => simp [findCourseSplit, hx] at h
    | some v =>
      by_cases hv : v = t
      · simp [findCourseSplit, hx, hv] at h
        obtain ⟨h1, h2, h3⟩ := h
        subst h1; subst h2; subst h3
        refine ⟨rfl, by rw [hx, hv], ?_⟩
        intro p hp; simp at hp
      · cases hr : findCourseSplit rest t with
        | error e => simp [findCourseSplit, hx, hv, hr] at h
        | ok o =>
          cases o with
          | none => simp [findCourseSplit, hx, hv, hr] at h
          | some trip =>
            obtain ⟨pre', f, suf'⟩ := trip
            simp [findCourseSplit, hx, hv, hr] at h
            obtain ⟨h1, h2, h3⟩ := h
            obtain ⟨hrec1, hrec2, hrec3⟩ := ih t pre' f suf' hr
            subst h2; subst h3
            constructor
            · rw [← h1, hrec1]; rfl
            · refine ⟨hrec2, ?_⟩
              intro p hp
              rw [← h1] at hp
              cases hp with
              | head => exact ⟨v, hx, hv⟩
              | tail _ htail => exact hrec3 p htail

theorem findCourseSplit_none_spec :
    ∀ (cours : List Dict) (t : JVal),
    findCourseSplit cours t = .ok none →
    ∀ c ∈ cours, ∃ v, dictGet c "id" = some v ∧ v ≠ t := by
  intro cours
  induction cours with
  | nil => intro t _ c hc; simp at hc
  | cons x rest ih =>
    intro t h c hc
    cases hx : dictGet x "id" with
    | none => simp [findCourseSplit, hx] at h
    | some v =>
      by_cases hv : v = t
      · simp [findCourseSplit, hx, hv] at h
      · cases hr : findCourseSplit rest t with
        | error e => simp [findCourseSplit, hx, hv, hr] at h
        | ok o =>
          cases o with
          | none =>
            cases hc with
            | head => exact ⟨v, hx, hv⟩
            | tail _ htail => exact ih t hr c htail
          | some trip =>
            obtain ⟨pre', f, suf'⟩ := trip
            simp [findCourseSplit, hx, hv, hr] at h

theorem findCourseSplit_total :
    ∀ (cours : List Dict) (t : JVal),
    (∀ c ∈ cours, (dictGet c "id").isSome) →
    ∃ r, findCourseSplit cours t = .ok r := by
  intro cours
  induction cours with
  | nil => intro t _; exact ⟨none, rfl⟩
  | cons x rest ih =>
    intro t hwf
    cases hx : dictGet x "id" with
    | none =>
      have := hwf x (List.mem_cons_self x rest)
      rw [hx] at this; simp at this
    | some v =>
      by_cases hv : v = t
      · exact ⟨some ([], x, rest), by simp [findCourseSplit, hx, hv]⟩
      · obtain ⟨r, hr⟩ := ih t (fun c hc => hwf c (List.mem_cons_of_mem x hc))
        cases r with
        | none => exact ⟨none, by simp [findCourseSplit, hx, hv, hr]⟩
        | some trip =>
          obtain ⟨pre', f, suf'⟩ := trip
          exact ⟨some (x :: pre', f, suf'), by simp [findCourseSplit, hx, hv, hr]⟩

theorem findCourseSplit_found :
    ∀ (cours : List Dict) (t : JVal),
    (∀ c ∈ cours, (dictGet c "id").isSome) →
    (∃ c ∈ cours, dictGet c "id" = some t) →
    ∃ pre c suf, findCourseSplit cours t = .ok (some (pre, c, suf)) := by
  intro cours t hwf hex
  obtain ⟨r, hr⟩ := findCourseSplit_total cours t hwf
  cases r with
  | none =>
    obtain ⟨c, hc, hct⟩ := hex
    obtain ⟨v, hv, hvt⟩ := findCourseSplit_none_spec cours t hr c hc
    rw [hct] at hv
    exact absurd (Option.some.inj hv).symm hvt
  | some trip =>
    obtain ⟨pre, c, suf⟩ := trip
    exact ⟨pre, c, suf, hr⟩

theorem existsCourseId_true_spec :
    ∀ (cours : List Dict) (t : JVal),
    existsCourseId cours t = .ok true →
    ∃ c ∈ cours, dictGet c "id" = some t := by
  intro cours
  induction cours with
  | nil => intro t h; simp [existsCourseId] at h
  | cons x rest ih =>
    intro t h
    cases hx : dictGet x "id" with
    | none => simp [existsCourseId, hx] at h
    | some v =>
      by_cases hv : v = t
      · exact ⟨x, List.mem_cons_self x rest, by rw [hx, hv]⟩
      · simp only [existsCourseId, hx, if_neg hv] at h
        obtain ⟨c, hc, hct⟩ := ih t h
        exact ⟨c, List.mem_cons_of_mem x hc, hct⟩

theorem existsCourseId_false_spec :
    ∀ (cours : List Dict) (t : JVal),
    existsCourseId cours t = .ok false →
    ∀ c ∈ cours, dictGet c "id" ≠ some t := by
  intro cours
  induction cours with
  | nil => intro t _ c hc; simp at hc
  | cons x rest ih =>
    intro t h c hc
    cases hx : dictGet x "id" with
    | none => simp [existsCourseId, hx] at h
    | some v =>
      by_cases hv : v = t
      · simp [existsCourseId, hx, hv] at h
      · simp only [existsCourseId, hx, if_neg hv] at h
        cases hc with
        | head => rw [hx]; intro hh; exact hv (Option.some.inj hh)
        | tail _ htail => exact ih t h c htail

theorem existsCourseId_total :
    ∀ (cours : List Dict) (t : JVal),
    (∀ c ∈ cours, (dictGet c "id").isSome) →
    ∃ b, existsCourseId cours t = .ok b := by
  intro cours
  induction cours with
  | nil => intro t _; exact ⟨false, rfl⟩
  | cons x rest ih =>
    intro t hwf
    cases hx : dictGet x "id" with
    | none =>
      have := hwf x (List.mem_cons_self x rest)
      rw [hx] at this; simp at this
    | some v =>
      by_cases hv : v = t
      · exact ⟨true, by simp [existsCourseId, hx, hv]⟩
      · obtain ⟨b, hb⟩ := ih t (fun c hc => hwf c (List.mem_cons_of_mem x hc))
        exact ⟨b, by simp [existsCourseId, hx, hv, hb]⟩

theorem pyRemoveFirst_split (pre suf : List Dict) (c : Dict)
    (hpre : ∀ p ∈ pre, p ≠ c) :
    pyRemoveFirst (pre ++ c :: suf) c = .ok (pre ++ suf) := by
  induction pre with
  | nil => simp [pyRemoveFirst]
  | cons x rest ih =>
    have hx : x ≠ c := hpre x (List.mem_cons_self x rest)
    simp only [List.cons_append, pyRemoveFirst, if_neg hx]
    rw [show rest.append (c :: suf) = rest ++ c :: suf from rfl,
      ih (fun p hp => hpre p (List.mem_cons_of_mem x hp))]

/-- Claim C7: `load()` is total under failure of the backing store: if the
store does not exist (`store = none`), or exists but fails to parse
(`parse s = none`, i.e. `json.JSONDecodeError`), `load_data` returns the
default document with an empty course list without raising — its return
type is plain `JVal`, so the parse failure is never surfaced to the
caller. -/
theorem load_data_total_on_failure (store : Option String) (parse : String → Option JVal)
    (h : store = none ∨ ∃ s, store = some s ∧ parse s = none) :
    load_data store parse = .obj [("cours", .arr [])] := by
  rcases h with h | ⟨s, hs, hp⟩
  · rw [h]; rfl
  · rw [hs]; simp [load_data, hp]

theorem load_data_total_on_failure_witness :
    load_data none (fun _ => none) = .obj [("cours", .arr [])] ∧
    load_data (some "not json at all") (fun _ => none) = .obj [("cours", .arr [])] :=
  ⟨load_data_total_on_failure none (fun _ => none) (Or.inl rfl),
   load_data_total_on_failure (some "not json at all") (fun _ => none)
     (Or.inr ⟨"not json at all", rfl, rfl⟩)⟩

/-- Claim C5: creating a course whose `id` equals the `id` of some
existing course fails with status 400 and leaves the stored document
unchanged (`saved = none`, i.e. `save_data` is never reached); creating a
course with a fresh `id` appends the input verbatim to the end of `cours`,
persists exactly that list, and returns status 201. The hypothesis that
every stored course carries an `'id'` field is the data-model invariant
(`course['id']` would otherwise raise before the decision is made). -/
theorem courses_post_spec (cours : List Dict) (input : Dict)
    (hids : ∀ c ∈ cours, (dictGet c "id").isSome) :
    ((∃ c ∈ cours, dictGet c "id" = some (dictGetD input "id" .null)) →
      courses_post cours input = .ok ⟨400, COURSE_ALREADY_EXISTS, none⟩) ∧
    ((∀ c ∈ cours, dictGet c "id" ≠ some (dictGetD input "id" .null)) →
      courses_post cours input =
        .ok ⟨201, .obj [("message", .str "Cours créé avec succès."), ("cours", .obj input)],
             some (cours ++ [input])⟩) := by
  obtain ⟨b, hb⟩ := existsCourseId_total cours (dictGetD input "id" .null) hids
  constructor
  · intro hex
    cases b with
    | false =>
      obtain ⟨c, hc, hct⟩ := hex
      exact absurd hct (existsCourseId_false_spec _ _ hb c hc)
    | true => simp [courses_post, hb]
  · intro hall
    cases b with
    | true =>
      obtain ⟨c, hc, hct⟩ := existsCourseId_true_spec _ _ hb
      exact absurd hct (hall c hc)
    | false => simp [courses_post, hb]

theorem courses_post_spec_witness :
    courses_post [[("id", JVal.int 1)]] [("id", JVal.int 1), ("titre", JVal.str "X")] =
      .ok ⟨400, COURSE_ALREADY_EXISTS, none⟩ ∧
    courses_post [[("id", JVal.int 1)]] [("id", JVal.int 2)] =
      .ok ⟨201, .obj [("message", .str "Cours créé avec succès."),
                      ("cours", .obj [("id", JVal.int 2)])],
           some [[("id", JVal.int 1)], [("id", JVal.int 2)]]⟩ :=
  ⟨(courses_post_spec [[("id", JVal.int 1)]] [("id", JVal.int 1), ("titre", JVal.str "X")]
      (by decide)).1 (by decide),
   (courses_post_spec [[("id", JVal.int 1)]] [("id", JVal.int 2)] (by decide)).2 (by decide)⟩

/-- Claim C6: deleting a course by id fails with 404 and leaves the
document unchanged (`saved = none`) when no course matches; otherwise it
removes exactly the first matching course in document order — the split
returned by `findCourseSplit` is around the first match — leaving every
other course and their relative order unchanged (`pre ++ suf`), and
persists. -/
theorem courses_course_id_delete_spec (cours : List Dict) (cid : JVal)
    (hids : ∀ c ∈ cours, (dictGet c "id").isSome) :
    ((∀ c ∈ cours, dictGet c "id" ≠ some cid) →
      courses_course_id_delete cours cid = .ok ⟨404, COURSE_NOT_FOUND, none⟩) ∧
    (∀ pre c suf, findCourseSplit cours cid = .ok (some (pre, c, suf)) →
      cours = pre ++ c :: suf ∧ dictGet c "id" = some cid ∧
      (∀ p ∈ pre, dictGet p "id" ≠ some cid) ∧
      courses_course_id_delete cours cid =
        .ok ⟨200, .obj [("message", .str "Cours supprimé avec succès.")],
             some (pre ++ suf)⟩) := by
  constructor
  · intro hall
    obtain ⟨r, hr⟩ := findCourseSplit_total cours cid hids
    cases r with
    | some trip =>
      obtain ⟨pre, c, suf⟩ := trip
      obtain ⟨hseq, hcid, _⟩ := findCourseSplit_spec cours cid pre c suf hr
      have : c ∈ cours := by rw [hseq]; exact List.mem_append_right pre (List.mem_cons_self c suf)
      exact absurd hcid (hall c this)
    | none => simp [courses_course_id_delete, hr]
  · intro pre c suf hsplit
    obtain ⟨hseq, hcid, hpre⟩ := findCourseSplit_spec cours cid pre c suf hsplit
    have hne : c.isEmpty = false := dictGet_isSome_ne_nil hcid
    have hpne : ∀ p ∈ pre, p ≠ c := by
      intro p hp hpc
      obtain ⟨v, hv, hvt⟩ := hpre p hp
      rw [hpc, hcid] at hv
      exact hvt (Option.some.inj hv).symm
    have hrem : pyRemoveFirst cours c = .ok (pre ++ suf) := by
      rw [hseq]; exact pyRemoveFirst_split pre suf c hpne
    refine ⟨hseq, hcid, ?_, ?_⟩
    · intro p hp
      obtain ⟨v, hv, hvt⟩ := hpre p hp
      rw [hv]
      intro hh
      exact hvt (Option.some.inj hh)
    · simp [courses_course_id_delete, hsplit, hne, hrem]

theorem courses_course_id_delete_spec_witness :
    courses_course_id_delete [[("id", JVal.int 1)], [("id", JVal.int 2)], [("id", JVal.int 3)]]
        (JVal.int 2) =
      .ok ⟨200, .obj [("message", .str "Cours supprimé avec succès.")],
           some [[("id", JVal.int 1)], [("id", JVal.int 3)]]⟩ ∧
    courses_course_id_delete [[("id", JVal.int 1)]] (JVal.int 9) =
      .ok ⟨404, COURSE_NOT_FOUND, none⟩ :=
  ⟨((courses_course_id_delete_spec
      [[("id", JVal.int 1)], [("id", JVal.int 2)], [("id", JVal.int 3)]] (JVal.int 2)
      (by decide)).2 [[("id", JVal.int 1)]] [("id", JVal.int 2)] [[("id", JVal.int 3)]]
      (by rfl)).2.2.2,
   (courses_course_id_delete_spec [[("id", JVal.int 1)]] (JVal.int 9) (by decide)).1
     (by decide)⟩

/-- Claim C3: updating an existing course performs a shallow merge: every
field present in the patch replaces the course's prior value for that
field entirely (including `'id'`), every field absent from the patch is
preserved — the `∀ k` clause states both — and the merged course is both
persisted at the course's position and returned in the response body. If
no course matches the id, the result is 404 with no save. The `Nodup`
hypothesis records that a Python dict cannot bind the same key twice. -/
theorem courses_course_id_put_spec (cours : List Dict) (cid : JVal) (patch : Dict)
    (hids : ∀ c ∈ cours, (dictGet c "id").isSome)
    (hnd : (patch.map Prod.fst).Nodup) :
    ((∀ c ∈ cours, dictGet c "id" ≠ some cid) →
      courses_course_id_put cours cid patch = .ok ⟨404, COURSE_NOT_FOUND, none⟩) ∧
    (∀ pre c suf, findCourseSplit cours cid = .ok (some (pre, c, suf)) →
      cours = pre ++ c :: suf ∧
      courses_course_id_put cours cid patch =
        .ok ⟨200, .obj [("message", .str "Cours mis à jour avec succès."),
                        ("cours", .obj (dictUpdate c patch))],
             some (pre ++ dictUpdate c patch :: suf)⟩ ∧
      (∀ k, dictGet (dictUpdate c patch) k =
        match dictGet patch k with
        | some v => some v
        | none => dictGet c k)) := by
  constructor
  · intro hall
    obtain ⟨r, hr⟩ := findCourseSplit_total cours cid hids
    cases r with
    | some trip =>
      obtain ⟨pre, c, suf⟩ := trip
      obtain ⟨hseq, hcid, _⟩ := findCourseSplit_spec cours cid pre c suf hr
      have : c ∈ cours := by rw [hseq]; exact List.mem_append_right pre (List.mem_cons_self c suf)
      exact absurd hcid (hall c this)
    | none => simp [courses_course_id_put, hr]
  · intro pre c suf hsplit
    obtain ⟨hseq, hcid, _⟩ := findCourseSplit_spec cours cid pre c suf hsplit
    have hne : c.isEmpty = false := dictGet_isSome_ne_nil hcid
    exact ⟨hseq, by simp [courses_course_id_put, hsplit, hne],
      fun k => dictGet_dictUpdate c patch k hnd⟩

theorem courses_course_id_put_spec_witness :
    courses_course_id_put [[("id", JVal.int 1), ("title", JVal.str "A")]] (JVal.int 1)
        [("title", JVal.str "B")] =
      .ok ⟨200, .obj [("message", .str "Cours mis à jour avec succès."),
                      ("cours", .obj [("id", JVal.int 1), ("title", JVal.str "B")])],
           some [[("id", JVal.int 1), ("title", JVal.str "B")]]⟩ :=
  ((courses_course_id_put_spec [[("id", JVal.int 1), ("title", JVal.str "A")]] (JVal.int 1)
      [("title", JVal.str "B")] (by decide) (by decide)).2
    [] [("id", JVal.int 1), ("title", JVal.str "A")] [] (by rfl)).2.1

/-- Data-model invariant for a session (spec §3): an object carrying an
`'id'` field. -/
def wfSession (s : JVal) : Bool :=
  match s with
  | .obj sd => (dictGet sd "id").isSome
  | _ => false

/-- Data-model invariant for a module (spec §3): an object whose
`'seances'`, when present, is an array of well-formed sessions. -/
def wfModule (m : JVal) : Bool :=
  match m with
  | .obj md =>
    match dictGet md "seances" with
    | none => true
    | some (.arr ss) => ss.all wfSession
    | some _ => false
  | _ => false

/-- Data-model invariant for a course (spec §3): carries `'id'`, and its
`'modules'`, when present, is an array of well-formed modules. -/
def wfCourse (c : Dict) : Bool :=
  (dictGet c "id").isSome &&
  (match dictGet c "modules" with
   | none => true
   | some (.arr ms) => ms.all wfModule
   | some _ => false)

/-- Data-model invariant for the whole loaded course list. -/
def wfCours (cours : List Dict) : Bool := cours.all wfCourse

/-- Modules of a course with the spec's absence-is-empty reading (spec-side
helper for stating refinement; under the data-model invariant it agrees
with what the code iterates when no exception occurs). -/
def modulesOf (c : Dict) : List JVal :=
  match dictGet c "modules" with
  | some (.arr ms) => ms
  | _ => []

/-- Sessions of a module with the spec's absence-is-empty reading. -/
def seancesOf (m : JVal) : List JVal :=
  match m with
  | .obj md =>
    match dictGet md "seances" with
    | some (.arr ss) => ss
    | _ => []
  | _ => []

/-- Does this session object carry exactly the id `sid`. -/
def sessionHasId (s : JVal) (sid : JVal) : Bool :=
  match s with
  | .obj sd => decide (dictGet sd "id" = some sid)
  | _ => false

/-- Modelled from the spec: a session whose `id` equals `sid` exists in
some module of the course (`modules` and `seances` absent read as empty).
This is the spec's description of the Conflict condition and of session
lookup success, to be compared with the code's traversal. -/
def specSessionIdExists (course : Dict) (sid : JVal) : Bool :=
  (modulesOf course).any (fun m => (seancesOf m).any (fun s => sessionHasId s sid))

/-- No session of module `m` carries id `sid`. -/
def noSessionWithId (m : JVal) (sid : JVal) : Bool :=
  (seancesOf m).all (fun s => !sessionHasId s sid)

/-- Modelled from the spec: flatten all sessions of a module list, in
module order then session order. -/
def flattenSessions : List JVal → List JVal
  | [] => []
  | m :: rest => seancesOf m ++ flattenSessions rest

theorem findSessionInSeances_some :
    ∀ (ss : List JVal) (sid : JVal) (j j0 : Nat) (sd : Dict),
    findSessionInSeances ss sid j = .ok (some (j0, sd)) →
    ∃ spre ssuf, ss = spre ++ .obj sd :: ssuf ∧ j0 = j + spre.length ∧
      (∀ s ∈ spre, sessionHasId s sid = false) ∧ dictGet sd "id" = some sid := by
  intro ss
  induction ss with
  | nil => intro sid j j0 sd h; simp [findSessionInSeances] at h
  | cons s rest ih =>
    intro sid j j0 sd h
    cases s with
    | obj sd0 =>
      cases hx : dictGet sd0 "id" with
      | none => simp [findSessionInSeances, hx] at h
      | some v =>
        by_cases hv : v = sid
        · simp [findSessionInSeances, hx, hv] at h
          obtain ⟨h1, h2⟩ := h
          subst h1; subst h2
          exact ⟨[], rest, rfl, by simp, by simp, by rw [hx, hv]⟩
        · simp only [findSessionInSeances, hx, if_neg hv] at h
          obtain ⟨spre, ssuf, hseq, hj, hall, hid⟩ := ih sid (j + 1) j0 sd h
          refine ⟨.obj sd0 :: spre, ssuf, by rw [hseq]; rfl,
            by simp only [List.length_cons]; omega, ?_, hid⟩
          intro s hs
          cases hs with
          | head => simp [sessionHasId, hx, hv]
          | tail _ htail => exact hall s htail
    | null => simp [findSessionInSeances] at h
    | bool b => simp [findSessionInSeances] at h
    | int n => simp [findSessionInSeances] at h
    | str t => simp [findSessionInSeances] at h
    | arr xs => simp [findSessionInSeances] at h

theorem findSessionInSeances_none :
    ∀ (ss : List JVal) (sid : JVal) (j : Nat),
    findSessionInSeances ss sid j = .ok none →
    ∀ s ∈ ss, sessionHasId s sid = false := by
  intro ss
  induction ss with
  | nil => intro sid j _ s hs; simp at hs
  | cons s0 rest ih =>
    intro sid j h s hs
    cases s0 with
    | obj sd0 =>
      cases hx : dictGet sd0 "id" with
      | none => simp [findSessionInSeances, hx] at h
      | some v =>
        by_cases hv : v = sid
        · simp [findSessionInSeances, hx, hv] at h
        · simp only [findSessionInSeances, hx, if_neg hv] at h
          cases hs with
          | head => simp [sessionHasId, hx, hv]
          | tail _ htail => exact ih sid (j + 1) h s htail
    | null => simp [findSessionInSeances] at h
    | bool b => simp [findSessionInSeances] at h
    | int n => simp [findSessionInSeances] at h
    | str t => simp [findSessionInSeances] at h
    | arr xs => simp [findSessionInSeances] at h

theorem findSessionInSeances_total :
    ∀ (ss : List JVal) (sid : JVal) (j : Nat),
    (∀ s ∈ ss, wfSession s = true) →
    ∃ r, findSessionInSeances ss sid j = .ok r := by
  intro ss
  induction ss with
  | nil => intro sid j _; exact ⟨none, rfl⟩
  | cons s0 rest ih =>
    intro sid j hwf
    have hs0 := hwf s0 (List.mem_cons_self s0 rest)
    cases s0 with
    | obj sd0 =>
      cases hx : dictGet sd0 "id" with
      | none => simp [wfSession, hx] at hs0
      | some v =>
        by_cases hv : v = sid
        · exact ⟨some (j, sd0), by simp [findSessionInSeances, hx, hv]⟩
        · obtain ⟨r, hr⟩ := ih sid (j + 1) (fun s hs => hwf s (List.mem_cons_of_mem _ hs))
          exact ⟨r, by simp [findSessionInSeances, hx, hv, hr]⟩
    | null => simp [wfSession] at hs0
    | bool b => simp [wfSession] at hs0
    | int n => simp [wfSession] at hs0
    | str t => simp [wfSession] at hs0
    | arr xs => simp [wfSession] at hs0

theorem iterSeances_ok {md : Dict} {ss : List JVal}
    (h : iterAsList (dictGetD md "seances" (.arr [])) = .ok ss) :
    ss = seancesOf (.obj md) ∧
      (dictGet md "seances" = none ∨ dictGet md "seances" = some (.arr ss)) := by
  cases hg : dictGet md "seances" with
  | none =>
    simp [dictGetD, hg, iterAsList] at h
    exact ⟨by simp [seancesOf, hg, ← h], Or.inl rfl⟩
  | some v =>
    cases v with
    | arr xs =>
      simp [dictGetD, hg, iterAsList] at h
      exact ⟨by simp [seancesOf, hg, ← h], Or.inr (by rw [← h])⟩
    | null => simp [dictGetD, hg, iterAsList] at h
    | bool b => simp [dictGetD, hg, iterAsList] at h
    | int n => simp [dictGetD, hg, iterAsList] at h
    | str t => simp [dictGetD, hg, iterAsList] at h
    | obj fs => simp [dictGetD, hg, iterAsList] at h

theorem noSessionWithId_iff (m : JVal) (sid : JVal) :
    noSessionWithId m sid = true ↔ ∀ s ∈ seancesOf m, sessionHasId s sid = false := by
  simp [noSessionWithId, List.all_eq_true]

theorem findSessionInModules_some :
    ∀ (ms : List JVal) (sid : JVal) (i mi si : Nat) (sd : Dict),
    findSessionInModules ms sid i = .ok (some (mi, si, sd)) →
    ∃ mpre md msuf, ms = mpre ++ .obj md :: msuf ∧ mi = i + mpre.length ∧
      (∀ m' ∈ mpre, noSessionWithId m' sid = true) ∧
      dictGet md "seances" = some (.arr (seancesOf (.obj md))) ∧
      findSessionInSeances (seancesOf (.obj md)) sid 0 = .ok (some (si, sd)) := by
  intro ms
  induction ms with
  | nil => intro sid i mi si sd h; simp [findSessionInModules] at h
  | cons m rest ih =>
    intro sid i mi si sd h
    cases m with
    | obj md =>
      cases hiter : iterAsList (dictGetD md "seances" (.arr [])) with
      | error e => simp [findSessionInModules, hiter] at h
      | ok ss =>
        obtain ⟨hss, hdis⟩ := iterSeances_ok hiter
        cases hfind : findSessionInSeances ss sid 0 with
        | error e => simp [findSessionInModules, hiter, hfind] at h
        | ok o =>
          cases o with
          | some pj =>
            obtain ⟨j, sd'⟩ := pj
            simp only [findSessionInModules, hiter, hfind, Except.ok.injEq,
              Option.some.injEq, Prod.mk.injEq] at h
            obtain ⟨h1, h2, h3⟩ := h
            subst h1; subst h2; subst h3
            obtain ⟨spre, ssuf, hsseq, _, _, _⟩ :=
              findSessionInSeances_some ss sid 0 j sd' hfind
            have hnonnil : ss ≠ [] := by rw [hsseq]; exact List.append_ne_nil_of_right_ne_nil _ (by simp)
            have hpres : dictGet md "seances" = some (.arr ss) := by
              cases hdis with
              | inl habs =>
                exfalso
                apply hnonnil
                rw [hss]
                simp [seancesOf, habs]
              | inr hpres => exact hpres
            refine ⟨[], md, rest, rfl, by simp, by simp, ?_, ?_⟩
            · rw [hpres, hss]
            · rw [← hss]; exact hfind
          | none =>
            simp only [findSessionInModules, hiter, hfind] at h
            obtain ⟨mpre, md', msuf, hseq, hmi, hall, hpres, hfind'⟩ :=
              ih sid (i + 1) mi si sd h
            refine ⟨.obj md :: mpre, md', msuf, by rw [hseq]; rfl,
              by simp only [List.length_cons]; omega, ?_, hpres, hfind'⟩
            intro m' hm'
            cases hm' with
            | head =>
              rw [noSessionWithId_iff]
              intro s hs
              rw [← hss] at hs
              exact findSessionInSeances_none ss sid 0 hfind s hs
            | tail _ htail => exact hall m' htail
    | null => simp [findSessionInModules] at h
    | bool b => simp [findSessionInModules] at h
    | int n => simp [findSessionInModules] at h
    | str t => simp [findSessionInModules] at h
    | arr xs => simp [findSessionInModules] at h

theorem findSessionInModules_none :
    ∀ (ms : List JVal) (sid : JVal) (i : Nat),
    findSessionInModules ms sid i = .ok none →
    ∀ m ∈ ms, noSessionWithId m sid = true := by
  intro ms
  induction ms with
  | nil => intro sid i _ m hm; simp at hm
  | cons m0 rest ih =>
    intro sid i h m hm
    cases m0 with
    | obj md =>
      cases hiter : iterAsList (dictGetD md "seances" (.arr [])) with
      | error e => simp [findSessionInModules, hiter] at h
      | ok ss =>
        obtain ⟨hss, _⟩ := iterSeances_ok hiter
        cases hfind : findSessionInSeances ss sid 0 with
        | error e => simp [findSessionInModules, hiter, hfind] at h
        | ok o =>
          cases o with
          | some pj => simp [findSessionInModules, hiter, hfind] at h
          | none =>
            simp only [findSessionInModules, hiter, hfind] at h
            cases hm with
            | head =>
              rw [noSessionWithId_iff]
              intro s hs
              rw [← hss] at hs
              exact findSessionInSeances_none ss sid 0 hfind s hs
            | tail _ htail => exact ih sid (i + 1) h m htail
    | null => simp [findSessionInModules] at h
    | bool b => simp [findSessionInModules] at h
    | int n => simp [findSessionInModules] at h
    | str t => simp [findSessionInModules] at h
    | arr xs => simp [findSessionInModules] at h

theorem findSessionInModules_total :
    ∀ (ms : List JVal) (sid : JVal) (i : Nat),
    (∀ m ∈ ms, wfModule m = true) →
    ∃ r, findSessionInModules ms sid i = .ok r := by
  intro ms
  induction ms with
  | nil => intro sid i _; exact ⟨none, rfl⟩
  | cons m0 rest ih =>
    intro sid i hwf
    have hm0 := hwf m0 (List.mem_cons_self m0 rest)
    cases m0 with
    | obj md =>
      cases hg : dictGet md "seances" with
      | none =>
        have hiter : iterAsList (dictGetD md "seances" (.arr [])) = .ok [] := by
          simp [dictGetD, hg, iterAsList]
        obtain ⟨r, hr⟩ := ih sid (i + 1) (fun m hm => hwf m (List.mem_cons_of_mem _ hm))
        exact ⟨r, by simp [findSessionInModules, hiter, findSessionInSeances, hr]⟩
      | some v =>
        cases v with
        | arr ss =>
          have hiter : iterAsList (dictGetD md "seances" (.arr [])) = .ok ss := by
            simp [dictGetD, hg, iterAsList]
          have hwfss : ∀ s ∈ ss, wfSession s = true := by
            have := hm0
            simp only [wfModule, hg, List.all_eq_true] at this
            exact this
          obtain ⟨rs, hrs⟩ := findSessionInSeances_total ss sid 0 hwfss
          cases rs with
          | some pj =>
            obtain ⟨j, sd⟩ := pj
            exact ⟨some (i, j, sd), by simp [findSessionInModules, hiter, hrs]⟩
          | none =>
            obtain ⟨r, hr⟩ := ih sid (i + 1) (fun m hm => hwf m (List.mem_cons_of_mem _ hm))
            exact ⟨r, by simp [findSessionInModules, hiter, hrs, hr]⟩
        | null => simp [wfModule, hg] at hm0
        | bool b => simp [wfModule, hg] at hm0
        | int n => simp [wfModule, hg] at hm0
        | str t => simp [wfModule, hg] at hm0
        | obj fs => simp [wfModule, hg] at hm0
    | null => simp [wfModule] at hm0
    | bool b => simp [wfModule] at hm0
    | int n => simp [wfModule] at hm0
    | str t => simp [wfModule] at hm0
    | arr xs => simp [wfModule] at hm0

theorem iterModules_ok {course : Dict} {ms : List JVal}
    (h : iterAsList (dictGetD course "modules" (.arr [])) = .ok ms) :
    ms = modulesOf course ∧
      (dictGet course "modules" = none ∨ dictGet course "modules" = some (.arr ms)) := by
  cases hg : dictGet course "modules" with
  | none =>
    simp [dictGetD, hg, iterAsList] at h
    exact ⟨by simp [modulesOf, hg, ← h], Or.inl rfl⟩
  | some v =>
    cases v with
    | arr xs =>
      simp [dictGetD, hg, iterAsList] at h
      exact ⟨by simp [modulesOf, hg, ← h], Or.inr (by rw [← h])⟩
    | null => simp [dictGetD, hg, iterAsList] at h
    | bool b => simp [dictGetD, hg, iterAsList] at h
    | int n => simp [dictGetD, hg, iterAsList] at h
    | str t => simp [dictGetD, hg, iterAsList] at h
    | obj fs => simp [dictGetD, hg, iterAsList] at h

theorem find_session_by_id_some {course : Dict} {sid : JVal} {mi si : Nat} {sd : Dict}
    (h : find_session_by_id course sid = .ok (some (mi, si, sd))) :
    dictGet course "modules" = some (.arr (modulesOf course)) ∧
    findSessionInModules (modulesOf course) sid 0 = .ok (some (mi, si, sd)) := by
  unfold find_session_by_id at h
  cases hiter : iterAsList (dictGetD course "modules" (.arr [])) with
  | error e => rw [hiter] at h; exact absurd h (by simp)
  | ok ms =>
    rw [hiter] at h
    obtain ⟨hms, hdis⟩ := iterModules_ok hiter
    obtain ⟨mpre, md, msuf, hseq, _, _, _, _⟩ := findSessionInModules_some ms sid 0 mi si sd h
    cases hdis with
    | inl habs =>
      exfalso
      have : ms = [] := by rw [hms]; simp [modulesOf, habs]
      rw [this] at hseq
      exact List.append_ne_nil_of_right_ne_nil mpre (by simp) hseq.symm
    | inr hpres =>
      rw [hms] at hpres h
      exact ⟨hpres, h⟩

theorem specSessionIdExists_false_iff (course : Dict) (sid : JVal) :
    specSessionIdExists course sid = false ↔
      ∀ m ∈ modulesOf course, noSessionWithId m sid = true := by
  constructor
  · intro h m hm
    rw [noSessionWithId_iff]
    intro s hs
    rw [specSessionIdExists, List.any_eq_false] at h
    have h2 := h m hm
    rw [Bool.not_eq_true, List.any_eq_false] at h2
    have h3 := h2 s hs
    rw [Bool.not_eq_true] at h3
    exact h3
  · intro h
    rw [specSessionIdExists, List.any_eq_false]
    intro m hm
    rw [Bool.not_eq_true, List.any_eq_false]
    intro s hs
    rw [Bool.not_eq_true]
    exact (noSessionWithId_iff m sid).mp (h m hm) s hs

theorem find_session_by_id_none {course : Dict} {sid : JVal}
    (h : find_session_by_id course sid = .ok none) :
    specSessionIdExists course sid = false := by
  unfold find_session_by_id at h
  cases hiter : iterAsList (dictGetD course "modules" (.arr [])) with
  | error e => rw [hiter] at h; exact absurd h (by simp)
  | ok ms =>
    rw [hiter] at h
    obtain ⟨hms, _⟩ := iterModules_ok hiter
    rw [specSessionIdExists_false_iff]
    intro m hm
    rw [← hms] at hm
    exact findSessionInModules_none ms sid 0 h m hm

theorem specSessionIdExists_true_of {course : Dict} {sid : JVal} {mpre msuf : List JVal}
    {md sd : Dict} {spre ssuf : List JVal}
    (hmods : modulesOf course = mpre ++ .obj md :: msuf)
    (hsea : seancesOf (.obj md) = spre ++ .obj sd :: ssuf)
    (hid : dictGet sd "id" = some sid) :
    specSessionIdExists course sid = true := by
  rw [specSessionIdExists, List.any_eq_true]
  refine ⟨.obj md, by rw [hmods]; exact List.mem_append_right mpre (List.mem_cons_self _ msuf), ?_⟩
  rw [List.any_eq_true]
  refine ⟨.obj sd, by rw [hsea]; exact List.mem_append_right spre (List.mem_cons_self _ ssuf), ?_⟩
  simp [sessionHasId, hid]

theorem wfCourse_modules {course : Dict} (hwf : wfCourse course = true) :
    ∀ m ∈ modulesOf course, wfModule m = true := by
  intro m hm
  unfold wfCourse at hwf
  rw [Bool.and_eq_true] at hwf
  cases hg : dictGet course "modules" with
  | none => rw [modulesOf, hg] at hm; simp at hm
  | some v =>
    cases v with
    | arr ms =>
      have := hwf.2
      rw [hg] at this
      rw [List.all_eq_true] at this
      rw [modulesOf, hg] at hm
      exact this m hm
    | null => have := hwf.2; rw [hg] at this; simp at this
    | bool b => have := hwf.2; rw [hg] at this; simp at this
    | int n => have := hwf.2; rw [hg] at this; simp at this
    | str t => have := hwf.2; rw [hg] at this; simp at this
    | obj fs => have := hwf.2; rw [hg] at this; simp at this

theorem find_session_by_id_total {course : Dict} (hwf : wfCourse course = true) (sid : JVal) :
    ∃ r, find_session_by_id course sid = .ok r := by
  unfold find_session_by_id
  cases hg : dictGet course "modules" with
  | none =>
    have hiter : iterAsList (dictGetD course "modules" (.arr [])) = .ok [] := by
      simp [dictGetD, hg, iterAsList]
    exact ⟨none, by rw [hiter]; rfl⟩
  | some v =>
    cases v with
    | arr ms =>
      have hiter : iterAsList (dictGetD course "modules" (.arr [])) = .ok ms := by
        simp [dictGetD, hg, iterAsList]
      have hms : ∀ m ∈ ms, wfModule m = true := by
        have := wfCourse_modules hwf
        rw [modulesOf, hg] at this
        exact this
      obtain ⟨r, hr⟩ := findSessionInModules_total ms sid 0 hms
      exact ⟨r, by rw [hiter]; exact hr⟩
    | null =>
      exfalso; unfold wfCourse at hwf; rw [Bool.and_eq_true] at hwf
      have := hwf.2; rw [hg] at this; simp at this
    | bool b =>
      exfalso; unfold wfCourse at hwf; rw [Bool.and_eq_true] at hwf
      have := hwf.2; rw [hg] at this; simp at this
    | int n =>
      exfalso; unfold wfCourse at hwf; rw [Bool.and_eq_true] at hwf
      have := hwf.2; rw [hg] at this; simp at this
    | str t =>
      exfalso; unfold wfCourse at hwf; rw [Bool.and_eq_true] at hwf
      have := hwf.2; rw [hg] at this; simp at this
    | obj fs =>
      exfalso; unfold wfCourse at hwf; rw [Bool.and_eq_true] at hwf
      have := hwf.2; rw [hg] at this; simp at this

theorem truthySession_found {sid : JVal} {mi si : Nat} {sd : Dict}
    (h : dictGet sd "id" = some sid) :
    truthySession (some (mi, si, sd)) = true := by
  simp [truthySession, dictGet_isSome_ne_nil h]

theorem anyConflict_eval {course sdata : Dict} {sid : JVal} {r : Option (Nat × Nat × Dict)} :
    ∀ (ms : List JVal),
    dictGet sdata "id" = some sid →
    find_session_by_id course sid = .ok r →
    anyConflict course sdata ms = .ok (if ms.isEmpty then false else truthySession r) := by
  intro ms
  induction ms with
  | nil => intro _ _; rfl
  | cons m rest ih =>
    intro hsid hr
    have hget : getItem sdata "id" = .ok sid := by rw [getItem, hsid]
    simp only [anyConflict, hget, hr, List.isEmpty_cons, if_false, Bool.false_eq_true]
    cases ht : truthySession r with
    | true => simp [ht]
    | false =>
      simp only [Bool.false_eq_true, if_false]
      rw [ih hsid hr, ht]
      cases rest <;> simp

theorem collectSessions_ok :
    ∀ (ms : List JVal), (∀ m ∈ ms, wfModule m = true) →
    collectSessions ms = .ok (flattenSessions ms) := by
  intro ms
  induction ms with
  | nil => intro _; rfl
  | cons m rest ih =>
    intro hwf
    have hm := hwf m (List.mem_cons_self m rest)
    have hrest := ih (fun m' hm' => hwf m' (List.mem_cons_of_mem _ hm'))
    cases m with
    | obj md =>
      cases hg : dictGet md "seances" with
      | none =>
        have hiter : iterAsList (dictGetD md "seances" (.arr [])) = .ok [] := by
          simp [dictGetD, hg, iterAsList]
        simp [collectSessions, hiter, hrest, flattenSessions, seancesOf, hg]
      | some v =>
        cases v with
        | arr ss =>
          have hiter : iterAsList (dictGetD md "seances" (.arr [])) = .ok ss := by
            simp [dictGetD, hg, iterAsList]
          simp [collectSessions, hiter, hrest, flattenSessions, seancesOf, hg]
        | null => simp [wfModule, hg] at hm
        | bool b => simp [wfModule, hg] at hm
        | int n => simp [wfModule, hg] at hm
        | str t => simp [wfModule, hg] at hm
        | obj fs => simp [wfModule, hg] at hm
    | null => simp [wfModule] at hm
    | bool b => simp [wfModule] at hm
    | int n => simp [wfModule] at hm
    | str t => simp [wfModule] at hm
    | arr xs => simp [wfModule] at hm

theorem wfCours_ids {cours : List Dict} (h : wfCours cours = true) :
    ∀ c ∈ cours, (dictGet c "id").isSome := by
  intro c hc
  have := (List.all_eq_true.mp h) c hc
  unfold wfCourse at this
  rw [Bool.and_eq_true] at this
  exact this.1

theorem wfCourse_of_mem {cours : List Dict} {c : Dict}
    (h : wfCours cours = true) (hc : c ∈ cours) : wfCourse c = true :=
  List.all_eq_true.mp h c hc

theorem iterModules_of_wf {c : Dict} (hwf : wfCourse c = true) :
    iterAsList (dictGetD c "modules" (.arr [])) = .ok (modulesOf c) := by
  unfold wfCourse at hwf
  rw [Bool.and_eq_true] at hwf
  cases hg : dictGet c "modules" with
  | none => simp [dictGetD, hg, iterAsList, modulesOf]
  | some v =>
    cases v with
    | arr ms => simp [dictGetD, hg, iterAsList, modulesOf]
    | null => have := hwf.2; rw [hg] at this; simp at this
    | bool b => have := hwf.2; rw [hg] at this; simp at this
    | int n => have := hwf.2; rw [hg] at this; simp at this
    | str t => have := hwf.2; rw [hg] at this; simp at this
    | obj fs => have := hwf.2; rw [hg] at this; simp at this

/-- Claim C8: listing sessions for a course fails with 404 when no course
matches the id; otherwise it returns, with status 200 and without saving,
the concatenation in module order then session order of every module's
sessions (`flattenSessions (modulesOf c)`), and when the course has no
modules that sequence is empty — an empty answer, not an error. -/
theorem courses_course_id_sessions_get_spec (cours : List Dict) (cid : JVal)
    (hwf : wfCours cours = true) :
    ((∀ c ∈ cours, dictGet c "id" ≠ some cid) →
      courses_course_id_sessions_get cours cid = .ok ⟨404, COURSE_NOT_FOUND, none⟩) ∧
    (∀ pre c suf, findCourseSplit cours cid = .ok (some (pre, c, suf)) →
      courses_course_id_sessions_get cours cid =
        .ok ⟨200, .obj [("seances", .arr (flattenSessions (modulesOf c)))], none⟩ ∧
      (modulesOf c = [] → flattenSessions (modulesOf c) = [])) := by
  constructor
  · intro hall
    obtain ⟨r, hr⟩ := findCourseSplit_total cours cid (wfCours_ids hwf)
    cases r with
    | some trip =>
      obtain ⟨pre, c, suf⟩ := trip
      obtain ⟨hseq, hcid, _⟩ := findCourseSplit_spec cours cid pre c suf hr
      have : c ∈ cours := by rw [hseq]; exact List.mem_append_right pre (List.mem_cons_self c suf)
      exact absurd hcid (hall c this)
    | none => simp [courses_course_id_sessions_get, hr]
  · intro pre c suf hsplit
    obtain ⟨hseq, hcid, _⟩ := findCourseSplit_spec cours cid pre c suf hsplit
    have hcm : c ∈ cours := by
      rw [hseq]; exact List.mem_append_right pre (List.mem_cons_self c suf)
    have hcwf : wfCourse c = true := wfCourse_of_mem hwf hcm
    have hne : c.isEmpty = false := dictGet_isSome_ne_nil hcid
    have hiter := iterModules_of_wf hcwf
    have hcoll := collectSessions_ok (modulesOf c) (wfCourse_modules hcwf)
    refine ⟨by simp [courses_course_id_sessions_get, hsplit, hne, hiter, hcoll], ?_⟩
    intro h
    rw [h]
    rfl

theorem courses_course_id_sessions_get_spec_witness :
    courses_course_id_sessions_get
        [[("id", JVal.int 1),
          ("modules", JVal.arr
            [.obj [("id", .str "m1"), ("seances", .arr [.obj [("id", JVal.int 5)]])],
             .obj [("id", .str "m2"), ("seances", .arr [.obj [("id", JVal.int 6)]])]])],
         [("id", JVal.int 2)]] (JVal.int 1) =
      .ok ⟨200, .obj [("seances", .arr [.obj [("id", JVal.int 5)], .obj [("id", JVal.int 6)]])],
           none⟩ ∧
    courses_course_id_sessions_get [[("id", JVal.int 2)]] (JVal.int 2) =
      .ok ⟨200, .obj [("seances", .arr [])], none⟩ ∧
    courses_course_id_sessions_get [[("id", JVal.int 2)]] (JVal.int 9) =
      .ok ⟨404, COURSE_NOT_FOUND, none⟩ :=
  ⟨((courses_course_id_sessions_get_spec
      [[("id", JVal.int 1),
        ("modules", JVal.arr
          [.obj [("id", .str "m1"), ("seances", .arr [.obj [("id", JVal.int 5)]])],
           .obj [("id", .str "m2"), ("seances", .arr [.obj [("id", JVal.int 6)]])]])],
       [("id", JVal.int 2)]] (JVal.int 1) (by decide)).2
      []
      [("id", JVal.int 1),
       ("modules", JVal.arr
         [.obj [("id", .str "m1"), ("seances", .arr [.obj [("id", JVal.int 5)]])],
          .obj [("id", .str "m2"), ("seances", .arr [.obj [("id", JVal.int 6)]])]])]
      [[("id", JVal.int 2)]] (by rfl)).1,
   ((courses_course_id_sessions_get_spec [[("id", JVal.int 2)]] (JVal.int 2) (by decide)).2
      [] [("id", JVal.int 2)] [] (by rfl)).1,
   (courses_course_id_sessions_get_spec [[("id", JVal.int 2)]] (JVal.int 9) (by decide)).1
     (by decide)⟩

/-- Claim C1 is violated by the code, in the session-creation path only:
on a course that simply lacks the `modules` key, `courses_course_id_sessions_post`
evaluates `course['modules']` (session_controller line 172) and raises
`KeyError('modules')`, while the very same request against the
explicit-empty shape `"modules": []` succeeds with 201 and synthesizes the
placeholder module. Listing sessions and updating a session do treat the
absent container as empty (200 with `[]`, resp. the same 404 as on the
empty shape), as the last two conjuncts record. -/
theorem sessions_absent_modules_code_bug :
    courses_course_id_sessions_post [[("id", JVal.int 1)]] (JVal.int 1) [("id", JVal.int 10)] =
      .error (.keyError "modules") ∧
    courses_course_id_sessions_post [[("id", JVal.int 1), ("modules", JVal.arr [])]]
        (JVal.int 1) [("id", JVal.int 10)] =
      .ok ⟨201, .obj [("message", .str "Séance créée avec succès."),
                      ("seance", .obj [("id", JVal.int 10)])],
           some [[("id", JVal.int 1),
                  ("modules", JVal.arr [.obj [("id", .str "module_1"),
                    ("titre", .str "Nouveau module"),
                    ("seances", .arr [.obj [("id", JVal.int 10)]])]])]]⟩ ∧
    courses_course_id_sessions_get [[("id", JVal.int 1)]] (JVal.int 1) =
      .ok ⟨200, .obj [("seances", JVal.arr [])], none⟩ ∧
    courses_course_id_sessions_session_id_put [[("id", JVal.int 1)]] (JVal.int 1)
        (JVal.int 10) [("titre", JVal.str "X")] =
      .ok ⟨404, SESSION_NOT_FOUND, none⟩ ∧
    courses_course_id_sessions_session_id_put
        [[("id", JVal.int 1), ("modules", JVal.arr [])]] (JVal.int 1)
        (JVal.int 10) [("titre", JVal.str "X")] =
      .ok ⟨404, SESSION_NOT_FOUND, none⟩ :=
  ⟨rfl, rfl, rfl, rfl, rfl⟩

/-- Claim C2: for a well-formed document and a course present in it,
session creation returns status 400 (Conflict) if and only if a session
whose `id` equals the input's `id` already exists in some module of that
course (the spec-side `specSessionIdExists`), and on Conflict the
operation returns before any mutation or save (`saved = none`). The
response cannot be a 400 for any other reason: when no such session
exists the call either succeeds with 201 or — on the degenerate shapes of
claim C1 — raises, but never reports Conflict. -/
theorem sessions_post_conflict_spec (cours : List Dict) (cid sid : JVal) (input : Dict)
    (hwf : wfCours cours = true)
    (hin : dictGet input "id" = some sid)
    (pre : List Dict) (c : Dict) (suf : List Dict)
    (hsplit : findCourseSplit cours cid = .ok (some (pre, c, suf))) :
    ((∃ r, courses_course_id_sessions_post cours cid input = .ok r ∧ r.status = 400) ↔
      specSessionIdExists c sid = true) ∧
    (specSessionIdExists c sid = true →
      courses_course_id_sessions_post cours cid input =
        .ok ⟨400, SESSION_ALREADY_EXISTS, none⟩) := by
  obtain ⟨hseq, hcid, _⟩ := findCourseSplit_spec cours cid pre c suf hsplit
  have hcm : c ∈ cours := by
    rw [hseq]; exact List.mem_append_right pre (List.mem_cons_self c suf)
  have hcwf : wfCourse c = true := wfCourse_of_mem hwf hcm
  have hne : c.isEmpty = false := dictGet_isSome_ne_nil hcid
  cases hg : dictGet c "modules" with
  | none =>
    have herr : courses_course_id_sessions_post cours cid input =
        .error (.keyError "modules") := by
      simp [courses_course_id_sessions_post, hsplit, hne, getItem, hg]
    have hspec : specSessionIdExists c sid = false := by
      simp [specSessionIdExists, modulesOf, hg]
    refine ⟨⟨?_, ?_⟩, ?_⟩
    · rintro ⟨r, hr, _⟩
      rw [herr] at hr
      exact absurd hr (by simp)
    · intro h; rw [hspec] at h; exact absurd h (by simp)
    · intro h; rw [hspec] at h; exact absurd h (by simp)
  | some v =>
    have harr : ∃ ms, v = .arr ms := by
      unfold wfCourse at hcwf
      rw [Bool.and_eq_true] at hcwf
      have hv := hcwf.2
      rw [hg] at hv
      cases v with
      | arr ms => exact ⟨ms, rfl⟩
      | null => simp at hv
      | bool b => simp at hv
      | int n => simp at hv
      | str t => simp at hv
      | obj fs => simp at hv
    obtain ⟨ms, rfl⟩ := harr
    have hgetm : getItem c "modules" = .ok (.arr ms) := by rw [getItem, hg]
    have hmods : modulesOf c = ms := by simp [modulesOf, hg]
    obtain ⟨r, hfr⟩ := find_session_by_id_total hcwf sid
    cases ms with
    | nil =>
      have hspec : specSessionIdExists c sid = false := by
        simp [specSessionIdExists, hmods]
      have hconf0 : anyConflict c input [] = .ok false := rfl
      have htruthy : truthyGet c "modules" = false := by
        simp [truthyGet, hg, JVal.truthy]
      have hm1 : dictGet (dictSet c "modules" (.arr [.obj freshModule])) "modules" =
          some (.arr [.obj freshModule]) := by
        rw [dictGet_dictSet]; simp
      have happend : appendToFirstModule (dictSet c "modules" (.arr [.obj freshModule])) input =
          .ok (dictSet (dictSet c "modules" (.arr [.obj freshModule])) "modules"
                (.arr [.obj (dictSet freshModule "seances" (.arr [.obj input]))])) := by
        simp [appendToFirstModule, getItem, hm1]
        rfl
      have hres : courses_course_id_sessions_post cours cid input =
          .ok ⟨201, .obj [("message", .str "Séance créée avec succès."),
                          ("seance", .obj input)],
               some (pre ++ (dictSet (dictSet c "modules" (.arr [.obj freshModule])) "modules"
                 (.arr [.obj (dictSet freshModule "seances" (.arr [.obj input]))])) :: suf)⟩ := by
        simp [courses_course_id_sessions_post, hsplit, hne, hgetm, iterAsList, hconf0,
          htruthy, happend]
      refine ⟨⟨?_, ?_⟩, ?_⟩
      · rintro ⟨r', hr', h400⟩
        rw [hres] at hr'
        simp at hr'
        rw [← hr'] at h400
        simp at h400
      · intro h; rw [hspec] at h; exact absurd h (by simp)
      · intro h; rw [hspec] at h; exact absurd h (by simp)
    | cons m rest =>
      have hconf : anyConflict c input (m :: rest) = .ok (truthySession r) := by
        have := @anyConflict_eval c input sid r (m :: rest) hin hfr
        simpa using this
      cases r with
      | some trip =>
        obtain ⟨mi, si, sd⟩ := trip
        obtain ⟨hpresmods, hfm⟩ := find_session_by_id_some hfr
        obtain ⟨mpre, md, msuf, hmseq, _, _, hsea, hfs⟩ :=
          findSessionInModules_some (modulesOf c) sid 0 mi si sd hfm
        obtain ⟨spre, ssuf, hsseq, _, _, hid⟩ :=
          findSessionInSeances_some (seancesOf (.obj md)) sid 0 si sd hfs
        have htruthy : truthySession (some (mi, si, sd)) = true := truthySession_found hid
        have hspec : specSessionIdExists c sid = true :=
          specSessionIdExists_true_of hmseq hsseq hid
        have hconf2 : anyConflict c input (m :: rest) = .ok true := by
          rw [hconf, htruthy]
        have hres : courses_course_id_sessions_post cours cid input =
            .ok ⟨400, SESSION_ALREADY_EXISTS, none⟩ := by
          simp [courses_course_id_sessions_post, hsplit, hne, hgetm, iterAsList, hconf2]
        refine ⟨⟨?_, ?_⟩, ?_⟩
        · intro _; exact hspec
        · intro _; exact ⟨⟨400, SESSION_ALREADY_EXISTS, none⟩, hres, rfl⟩
        · intro _; exact hres
      | none =>
        have hspec : specSessionIdExists c sid = false := find_session_by_id_none hfr
        have htg : truthyGet c "modules" = true := by
          simp [truthyGet, hg, JVal.truthy]
        have hpost : ∀ r', courses_course_id_sessions_post cours cid input = .ok r' →
            r'.status = 201 := by
          intro r' hr'
          cases ha : appendToFirstModule c input with
          | error e =>
            rw [show courses_course_id_sessions_post cours cid input = .error e by
              simp [courses_course_id_sessions_post, hsplit, hne, hgetm, iterAsList, hconf,
                truthySession, htg, ha]] at hr'
            exact absurd hr' (by simp)
          | ok c2 =>
            rw [show courses_course_id_sessions_post cours cid input =
                .ok ⟨201, .obj [("message", .str "Séance créée avec succès."),
                                ("seance", .obj input)], some (pre ++ c2 :: suf)⟩ by
              simp [courses_course_id_sessions_post, hsplit, hne, hgetm, iterAsList, hconf,
                truthySession, htg, ha]] at hr'
            simp at hr'
            rw [← hr']
        refine ⟨⟨?_, ?_⟩, ?_⟩
        · rintro ⟨r', hr', h400⟩
          have := hpost r' hr'
          rw [this] at h400
          simp at h400
        · intro h; rw [hspec] at h; exact absurd h (by simp)
        · intro h; rw [hspec] at h; exact absurd h (by simp)

theorem sessions_post_conflict_spec_witness :
    courses_course_id_sessions_post
        [[("id", JVal.int 1),
          ("modules", JVal.arr
            [.obj [("id", .str "m1"), ("seances", .arr [])],
             .obj [("id", .str "m2"), ("seances", .arr [.obj [("id", JVal.int 10)]])]])]]
        (JVal.int 1) [("id", JVal.int 10)] =
      .ok ⟨400, SESSION_ALREADY_EXISTS, none⟩ :=
  ((sessions_post_conflict_spec
      [[("id", JVal.int 1),
        ("modules", JVal.arr
          [.obj [("id", .str "m1"), ("seances", .arr [])],
           .obj [("id", .str "m2"), ("seances", .arr [.obj [("id", JVal.int 10)]])]])]]
      (JVal.int 1) (JVal.int 10) [("id", JVal.int 10)] (by decide) (by decide)
      []
      [("id", JVal.int 1),
       ("modules", JVal.arr
         [.obj [("id", .str "m1"), ("seances", .arr [])],
          .obj [("id", .str "m2"), ("seances", .arr [.obj [("id", JVal.int 10)]])]])]
      [] (by rfl)).2) (by decide)

theorem dictSet_dictSet (d : Dict) (k : String) (v w : JVal) :
    dictSet (dictSet d k v) k w = dictSet d k w := by
  induction d with
  | nil => simp [dictSet]
  | cons p rest ih =>
    obtain ⟨pk, pv⟩ := p
    by_cases hpk : pk = k
    · subst hpk; simp [dictSet]
    · simp [dictSet, hpk, ih]

theorem findCourseSplit_of_parts {pre suf : List Dict} {c : Dict} {t : JVal}
    (hpre : ∀ p ∈ pre, ∃ v, dictGet p "id" = some v ∧ v ≠ t)
    (hc : dictGet c "id" = some t) :
    findCourseSplit (pre ++ c :: suf) t = .ok (some (pre, c, suf)) := by
  induction pre with
  | nil => simp [findCourseSplit, hc]
  | cons p rest ih =>
    obtain ⟨v, hv, hvt⟩ := hpre p (List.mem_cons_self p rest)
    have hrec := ih (fun q hq => hpre q (List.mem_cons_of_mem _ hq))
    simp only [List.cons_append, findCourseSplit, hv, if_neg hvt]
    rw [show rest.append (c :: suf) = rest ++ c :: suf from rfl, hrec]

theorem sessions_post_201_core (cours : List Dict) (cid : JVal) (input : Dict)
    (hwf : wfCours cours = true)
    (pre : List Dict) (c : Dict) (suf : List Dict)
    (hsplit : findCourseSplit cours cid = .ok (some (pre, c, suf)))
    (r : ApiRes)
    (hok : courses_course_id_sessions_post cours cid input = .ok r)
    (h201 : r.status = 201) :
    ∃ ms, dictGet c "modules" = some (.arr ms) ∧
      (ms = [] → r.saved = some (pre ++ dictSet c "modules"
        (.arr [.obj (dictSet freshModule "seances" (.arr [.obj input]))]) :: suf)) ∧
      (∀ m0 ms2, ms = m0 :: ms2 → ∃ m0d ss, m0 = .obj m0d ∧
        dictGet m0d "seances" = some (.arr ss) ∧
        r.saved = some (pre ++ dictSet c "modules"
          (.arr (.obj (dictSet m0d "seances" (.arr (ss ++ [.obj input]))) :: ms2)) :: suf)) := by
  obtain ⟨hseq, hcid, _⟩ := findCourseSplit_spec cours cid pre c suf hsplit
  have hcm : c ∈ cours := by
    rw [hseq]; exact List.mem_append_right pre (List.mem_cons_self c suf)
  have hcwf : wfCourse c = true := wfCourse_of_mem hwf hcm
  have hne : c.isEmpty = false := dictGet_isSome_ne_nil hcid
  cases hg : dictGet c "modules" with
  | none =>
    exfalso
    have herr : courses_course_id_sessions_post cours cid input =
        .error (.keyError "modules") := by
      simp [courses_course_id_sessions_post, hsplit, hne, getItem, hg]
    rw [herr] at hok
    exact absurd hok (by simp)
  | some v =>
    have harr : ∃ ms, v = .arr ms := by
      unfold wfCourse at hcwf
      rw [Bool.and_eq_true] at hcwf
      have hv := hcwf.2
      rw [hg] at hv
      cases v with
      | arr ms => exact ⟨ms, rfl⟩
      | null => simp at hv
      | bool b => simp at hv
      | int n => simp at hv
      | str t => simp at hv
      | obj fs => simp at hv
    obtain ⟨ms, rfl⟩ := harr
    have hgetm : getItem c "modules" = .ok (.arr ms) := by rw [getItem, hg]
    refine ⟨ms, rfl, ?_, ?_⟩
    · intro hms
      subst hms
      have hconf0 : anyConflict c input [] = .ok false := rfl
      have htruthy : truthyGet c "modules" = false := by
        simp [truthyGet, hg, JVal.truthy]
      have hm1 : dictGet (dictSet c "modules" (.arr [.obj freshModule])) "modules" =
          some (.arr [.obj freshModule]) := by
        rw [dictGet_dictSet]; simp
      have happend : appendToFirstModule (dictSet c "modules" (.arr [.obj freshModule])) input =
          .ok (dictSet (dictSet c "modules" (.arr [.obj freshModule])) "modules"
                (.arr [.obj (dictSet freshModule "seances" (.arr [.obj input]))])) := by
        simp [appendToFirstModule, getItem, hm1]
        rfl
      have hres : courses_course_id_sessions_post cours cid input =
          .ok ⟨201, .obj [("message", .str "Séance créée avec succès."),
                          ("seance", .obj input)],
               some (pre ++ (dictSet (dictSet c "modules" (.arr [.obj freshModule])) "modules"
                 (.arr [.obj (dictSet freshModule "seances" (.arr [.obj input]))])) :: suf)⟩ := by
        simp [courses_course_id_sessions_post, hsplit, hne, hgetm, iterAsList, hconf0,
          htruthy, happend]
      rw [hres] at hok
      simp only [Except.ok.injEq] at hok
      rw [← hok]
      rw [dictSet_dictSet]
    · intro m0 ms2 hms
      subst hms
      cases hi : dictGet input "id" with
      | none =>
        exfalso
        have hconfe : anyConflict c input (m0 :: ms2) = .error (.keyError "id") := by
          simp [anyConflict, getItem, hi]
        have herr : courses_course_id_sessions_post cours cid input =
            .error (.keyError "id") := by
          simp [courses_course_id_sessions_post, hsplit, hne, hgetm, iterAsList, hconfe]
        rw [herr] at hok
        exact absurd hok (by simp)
      | some sid =>
        obtain ⟨r0, hfr⟩ := find_session_by_id_total hcwf sid
        have hconf : anyConflict c input (m0 :: ms2) = .ok (truthySession r0) := by
          have := @anyConflict_eval c input sid r0 (m0 :: ms2) hi hfr
          simpa using this
        cases ht : truthySession r0 with
        | true =>
          exfalso
          have hconf2 : anyConflict c input (m0 :: ms2) = .ok true := by rw [hconf, ht]
          have hres : courses_course_id_sessions_post cours cid input =
              .ok ⟨400, SESSION_ALREADY_EXISTS, none⟩ := by
            simp [courses_course_id_sessions_post, hsplit, hne, hgetm, iterAsList, hconf2]
          rw [hres] at hok
          simp only [Except.ok.injEq] at hok
          rw [← hok] at h201
          simp at h201
        | false =>
          have hconf2 : anyConflict c input (m0 :: ms2) = .ok false := by rw [hconf, ht]
          have htg : truthyGet c "modules" = true := by
            simp [truthyGet, hg, JVal.truthy]
          cases m0 with
          | obj m0d =>
            cases hsg : dictGet m0d "seances" with
            | none =>
              exfalso
              have happ : appendToFirstModule c input = .error (.keyError "seances") := by
                simp [appendToFirstModule, getItem, hg, hsg]
              have herr : courses_course_id_sessions_post cours cid input =
                  .error (.keyError "seances") := by
                simp [courses_course_id_sessions_post, hsplit, hne, hgetm, iterAsList,
                  hconf2, htg, happ]
              rw [herr] at hok
              exact absurd hok (by simp)
            | some w =>
              cases w with
              | arr ss =>
                have happ : appendToFirstModule c input =
                    .ok (dictSet c "modules"
                      (.arr (.obj (dictSet m0d "seances" (.arr (ss ++ [.obj input]))) :: ms2))) := by
                  simp [appendToFirstModule, getItem, hg, hsg]
                have hres : courses_course_id_sessions_post cours cid input =
                    .ok ⟨201, .obj [("message", .str "Séance créée avec succès."),
                                    ("seance", .obj input)],
                         some (pre ++ (dictSet c "modules"
                           (.arr (.obj (dictSet m0d "seances" (.arr (ss ++ [.obj input])))
                             :: ms2))) :: suf)⟩ := by
                  simp [courses_course_id_sessions_post, hsplit, hne, hgetm, iterAsList,
                    hconf2, htg, happ]
                rw [hres] at hok
                simp only [Except.ok.injEq] at hok
                rw [← hok]
                exact ⟨m0d, ss, rfl, hsg, rfl⟩
              | null =>
                exfalso
                have happ : appendToFirstModule c input = .error .attrError := by
                  simp [appendToFirstModule, getItem, hg, hsg]
                have herr : courses_course_id_sessions_post cours cid input =
                    .error .attrError := by
                  simp [courses_course_id_sessions_post, hsplit, hne, hgetm, iterAsList,
                    hconf2, htg, happ]
                rw [herr] at hok
                exact absurd hok (by simp)
              | bool b =>
                exfalso
                have happ : appendToFirstModule c input = .error .attrError := by
                  simp [appendToFirstModule, getItem, hg, hsg]
                have herr : courses_course_id_sessions_post cours cid input =
                    .error .attrError := by
                  simp [courses_course_id_sessions_post, hsplit, hne, hgetm, iterAsList,
                    hconf2, htg, happ]
                rw [herr] at hok
                exact absurd hok (by simp)
              | int n =>
                exfalso
                have happ : appendToFirstModule c input = .error .attrError := by
                  simp [appendToFirstModule, getItem, hg, hsg]
                have herr : courses_course_id_sessions_post cours cid input =
                    .error .attrError := by
                  simp [courses_course_id_sessions_post, hsplit, hne, hgetm, iterAsList,
                    hconf2, htg, happ]
                rw [herr] at hok
                exact absurd hok (by simp)
              | str t =>
                exfalso
                have happ : appendToFirstModule c input = .error .attrError := by
                  simp [appendToFirstModule, getItem, hg, hsg]
                have herr : courses_course_id_sessions_post cours cid input =
                    .error .attrError := by
                  simp [courses_course_id_sessions_post, hsplit, hne, hgetm, iterAsList,
                    hconf2, htg, happ]
                rw [herr] at hok
                exact absurd hok (by simp)
              | obj fs =>
                exfalso
                have happ : appendToFirstModule c input = .error .attrError := by
                  simp [appendToFirstModule, getItem, hg, hsg]
                have herr : courses_course_id_sessions_post cours cid input =
                    .error .attrError := by
                  simp [courses_course_id_sessions_post, hsplit, hne, hgetm, iterAsList,
                    hconf2, htg, happ]
                rw [herr] at hok
                exact absurd hok (by simp)
          | null =>
            exfalso
            have happ : appendToFirstModule c input = .error .typeError := by
              simp [appendToFirstModule, getItem, hg]
            have herr : courses_course_id_sessions_post cours cid input =
                .error .typeError := by
              simp [courses_course_id_sessions_post, hsplit, hne, hgetm, iterAsList,
                hconf2, htg, happ]
            rw [herr] at hok
            exact absurd hok (by simp)
          | bool b =>
            exfalso
            have happ : appendToFirstModule c input = .error .typeError := by
              simp [appendToFirstModule, getItem, hg]
            have herr : courses_course_id_sessions_post cours cid input =
                .error .typeError := by
              simp [courses_course_id_sessions_post, hsplit, hne, hgetm, iterAsList,
                hconf2, htg, happ]
            rw [herr] at hok
            exact absurd hok (by simp)
          | int n =>
            exfalso
            have happ : appendToFirstModule c input = .error .typeError := by
              simp [appendToFirstModule, getItem, hg]
            have herr : courses_course_id_sessions_post cours cid input =
                .error .typeError := by
              simp [courses_course_id_sessions_post, hsplit, hne, hgetm, iterAsList,
                hconf2, htg, happ]
            rw [herr] at hok
            exact absurd hok (by simp)
          | str t =>
            exfalso
            have happ : appendToFirstModule c input = .error .typeError := by
              simp [appendToFirstModule, getItem, hg]
            have herr : courses_course_id_sessions_post cours cid input =
                .error .typeError := by
              simp [courses_course_id_sessions_post, hsplit, hne, hgetm, iterAsList,
                hconf2, htg, happ]
            rw [herr] at hok
            exact absurd hok (by simp)
          | arr xs =>
            exfalso
            have happ : appendToFirstModule c input = .error .typeError := by
              simp [appendToFirstModule, getItem, hg]
            have herr : courses_course_id_sessions_post cours cid input =
                .error .typeError := by
              simp [courses_course_id_sessions_post, hsplit, hne, hgetm, iterAsList,
                hconf2, htg, happ]
            rw [herr] at hok
            exact absurd hok (by simp)

/-- Claim C4: on every successful (201) session creation for an existing
course: when the course's modules list is empty, exactly one module — the
fixed `freshModule` (`id "module_1"`, placeholder title) — is synthesized
and the input becomes its only session; when modules are non-empty, the
input is appended to the end of the sessions of the first module in
document order, the remaining modules `ms2` staying untouched, so no
second module is ever created and no other module receives the session. A
subsequent successful creation on the course saved by the empty-modules
case appends to that same synthesized first module, leaving the modules
list a singleton. (Success requires the `modules` key to be present — on
an absent key the call raises instead, see claim C1 — so the `ms = []`
case is the "empty" half and the raise makes the "absent" half of the
claim vacuous under the 201 hypothesis.) -/
theorem sessions_post_placement_spec (cours : List Dict) (cid : JVal) (input : Dict)
    (hwf : wfCours cours = true)
    (hin1 : (dictGet input "id").isSome)
    (pre : List Dict) (c : Dict) (suf : List Dict)
    (hsplit : findCourseSplit cours cid = .ok (some (pre, c, suf)))
    (r : ApiRes)
    (hok : courses_course_id_sessions_post cours cid input = .ok r)
    (h201 : r.status = 201) :
    ∃ ms, dictGet c "modules" = some (.arr ms) ∧
      (ms = [] → r.saved = some (pre ++ dictSet c "modules"
        (.arr [.obj (dictSet freshModule "seances" (.arr [.obj input]))]) :: suf)) ∧
      (∀ m0 ms2, ms = m0 :: ms2 → ∃ m0d ss, m0 = .obj m0d ∧
        dictGet m0d "seances" = some (.arr ss) ∧
        r.saved = some (pre ++ dictSet c "modules"
          (.arr (.obj (dictSet m0d "seances" (.arr (ss ++ [.obj input]))) :: ms2)) :: suf)) ∧
      (ms = [] → ∀ input2 r2,
        courses_course_id_sessions_post
          (pre ++ dictSet c "modules"
            (.arr [.obj (dictSet freshModule "seances" (.arr [.obj input]))]) :: suf)
          cid input2 = .ok r2 →
        r2.status = 201 →
        r2.saved = some (pre ++ dictSet c "modules"
          (.arr [.obj (dictSet freshModule "seances"
            (.arr [.obj input, .obj input2]))]) :: suf)) := by
  obtain ⟨ms, hg, hnil, hcons⟩ :=
    sessions_post_201_core cours cid input hwf pre c suf hsplit r hok h201
  refine ⟨ms, hg, hnil, hcons, ?_⟩
  intro hms input2 r2 hok2 h201b
  obtain ⟨hseq, hcid, hpre⟩ := findCourseSplit_spec cours cid pre c suf hsplit
  have hfm1 : dictGet (dictSet freshModule "seances" (.arr [.obj input])) "seances" =
      some (.arr [.obj input]) := by
    rw [dictGet_dictSet]; simp
  have hwfm1 : wfModule (.obj (dictSet freshModule "seances" (.arr [.obj input]))) = true := by
    simp [wfModule, hfm1, wfSession, hin1]
  have hid2 : dictGet (dictSet c "modules"
      (.arr [.obj (dictSet freshModule "seances" (.arr [.obj input]))])) "id" = some cid := by
    rw [dictGet_dictSet]
    simp [hcid]
  have hm2 : dictGet (dictSet c "modules"
      (.arr [.obj (dictSet freshModule "seances" (.arr [.obj input]))])) "modules" =
      some (.arr [.obj (dictSet freshModule "seances" (.arr [.obj input]))]) := by
    rw [dictGet_dictSet]; simp
  have hwfc2 : wfCourse (dictSet c "modules"
      (.arr [.obj (dictSet freshModule "seances" (.arr [.obj input]))])) = true := by
    unfold wfCourse
    rw [Bool.and_eq_true, hid2, hm2]
    exact ⟨rfl, by simp [hwfm1]⟩
  have hwf2 : wfCours (pre ++ dictSet c "modules"
      (.arr [.obj (dictSet freshModule "seances" (.arr [.obj input]))]) :: suf) = true := by
    rw [wfCours, List.all_eq_true]
    intro x hx
    rw [List.mem_append] at hx
    cases hx with
    | inl hxp =>
      exact wfCourse_of_mem hwf (by rw [hseq]; exact List.mem_append_left _ hxp)
    | inr hxc =>
      cases hxc with
      | head => exact hwfc2
      | tail _ hxs =>
        exact wfCourse_of_mem hwf
          (by rw [hseq]; exact List.mem_append_right _ (List.mem_cons_of_mem _ hxs))
  have hsplit2 : findCourseSplit (pre ++ dictSet c "modules"
      (.arr [.obj (dictSet freshModule "seances" (.arr [.obj input]))]) :: suf) cid =
      .ok (some (pre, dictSet c "modules"
        (.arr [.obj (dictSet freshModule "seances" (.arr [.obj input]))]), suf)) :=
    findCourseSplit_of_parts hpre hid2
  obtain ⟨ms2, hg2, _, hcons2⟩ :=
    sessions_post_201_core _ cid input2 hwf2 pre _ suf hsplit2 r2 hok2 h201b
  have hms2 : ms2 = [.obj (dictSet freshModule "seances" (.arr [.obj input]))] := by
    rw [hm2] at hg2
    exact (JVal.arr.inj (Option.some.inj hg2)).symm
  obtain ⟨m0d, ss, hm0, hsg, hsaved⟩ :=
    hcons2 (.obj (dictSet freshModule "seances" (.arr [.obj input]))) [] hms2
  have hm0d : dictSet freshModule "seances" (.arr [.obj input]) = m0d := JVal.obj.inj hm0
  have hss : ss = [.obj input] := by
    rw [← hm0d] at hsg
    rw [hfm1] at hsg
    exact (JVal.arr.inj (Option.some.inj hsg)).symm
  rw [hsaved, ← hm0d, hss, dictSet_dictSet, dictSet_dictSet]
  rfl

theorem sessions_post_placement_spec_witness :
    (⟨201,
      .obj [("message", .str "Séance créée avec succès."),
            ("seance", .obj [("id", JVal.int 10)])],
      some [[("id", JVal.int 1),
             ("modules", JVal.arr [.obj [("id", .str "module_1"),
               ("titre", .str "Nouveau module"),
               ("seances", .arr [.obj [("id", JVal.int 10)]])]])]]⟩ : ApiRes).saved =
      some [[("id", JVal.int 1),
             ("modules", JVal.arr [.obj [("id", .str "module_1"),
               ("titre", .str "Nouveau module"),
               ("seances", .arr [.obj [("id", JVal.int 10)]])]])]] ∧
    (⟨201,
      .obj [("message", .str "Séance créée avec succès."),
            ("seance", .obj [("id", JVal.int 11)])],
      some [[("id", JVal.int 1),
             ("modules", JVal.arr [.obj [("id", .str "module_1"),
               ("titre", .str "Nouveau module"),
               ("seances", .arr [.obj [("id", JVal.int 10)],
                                 .obj [("id", JVal.int 11)]])]])]]⟩ : ApiRes).saved =
      some [[("id", JVal.int 1),
             ("modules", JVal.arr [.obj [("id", .str "module_1"),
               ("titre", .str "Nouveau module"),
               ("seances", .arr [.obj [("id", JVal.int 10)],
                                 .obj [("id", JVal.int 11)]])]])]] := by
  obtain ⟨ms, hg, hnil, hcons, hsub⟩ := sessions_post_placement_spec
    [[("id", JVal.int 1), ("modules", JVal.arr [])]] (JVal.int 1) [("id", JVal.int 10)]
    (by decide) (by decide) [] [("id", JVal.int 1), ("modules", JVal.arr [])] [] (by rfl)
    ⟨201,
     .obj [("message", .str "Séance créée avec succès."),
           ("seance", .obj [("id", JVal.int 10)])],
     some [[("id", JVal.int 1),
            ("modules", JVal.arr [.obj [("id", .str "module_1"),
              ("titre", .str "Nouveau module"),
              ("seances", .arr [.obj [("id", JVal.int 10)]])]])]]⟩ (by rfl) rfl
  have hms : ms = [] := (JVal.arr.inj (Option.some.inj hg)).symm
  constructor
  · exact hnil hms
  · exact hsub hms [("id", JVal.int 11)]
      ⟨201,
       .obj [("message", .str "Séance créée avec succès."),
             ("seance", .obj [("id", JVal.int 11)])],
       some [[("id", JVal.int 1),
              ("modules", JVal.arr [.obj [("id", .str "module_1"),
                ("titre", .str "Nouveau module"),
                ("seances", .arr [.obj [("id", JVal.int 10)],
                                  .obj [("id", JVal.int 11)]])]])]]⟩ (by rfl) rfl

theorem listNth_split (l1 : List JVal) (a : JVal) (l2 : List JVal) :
    listNth (l1 ++ a :: l2) l1.length = some a := by
  induction l1 with
  | nil => rfl
  | cons x rest ih => exact ih

theorem set_split {α : Type} (l1 : List α) (a b : α) (l2 : List α) :
    (l1 ++ a :: l2).set l1.length b = l1 ++ b :: l2 := by
  induction l1 with
  | nil => rfl
  | cons x rest ih =>
    rw [List.cons_append, List.length_cons, List.cons_append, List.set_cons_succ, ih]

/-- Claim C9: updating a session locates it regardless of which module
holds it, by scanning modules in order then each module's sessions in
order and taking the first id match — the `mpre`/`spre` clauses say every
earlier module holds no such id and every earlier session of the hit
module has a different id. It fails with 404 when the course does not
exist or when no session with the id exists in any module
(`specSessionIdExists` false), saving nothing; otherwise it shallow-merges
the patch into the found session (same `dictUpdate` semantics as the
course update, stated by the `∀ k` clause), writes it back in place at
module position `mi`, session position `si`, and persists the whole
document. -/
theorem sessions_session_put_spec (cours : List Dict) (cid sid : JVal) (patch : Dict)
    (hwf : wfCours cours = true)
    (hnd : (patch.map Prod.fst).Nodup) :
    ((∀ c ∈ cours, dictGet c "id" ≠ some cid) →
      courses_course_id_sessions_session_id_put cours cid sid patch =
        .ok ⟨404, COURSE_NOT_FOUND, none⟩) ∧
    (∀ pre c suf, findCourseSplit cours cid = .ok (some (pre, c, suf)) →
      (specSessionIdExists c sid = false →
        courses_course_id_sessions_session_id_put cours cid sid patch =
          .ok ⟨404, SESSION_NOT_FOUND, none⟩) ∧
      (∀ mi si sd, find_session_by_id c sid = .ok (some (mi, si, sd)) →
        (∃ mpre md msuf spre ssuf,
          dictGet c "modules" = some (.arr (mpre ++ .obj md :: msuf)) ∧
          mi = mpre.length ∧
          (∀ m' ∈ mpre, noSessionWithId m' sid = true) ∧
          dictGet md "seances" = some (.arr (spre ++ .obj sd :: ssuf)) ∧
          si = spre.length ∧
          (∀ s ∈ spre, sessionHasId s sid = false) ∧
          dictGet sd "id" = some sid ∧
          courses_course_id_sessions_session_id_put cours cid sid patch =
            .ok ⟨200, .obj [("message", .str "Séance mise à jour avec succès."),
                            ("seance", .obj (dictUpdate sd patch))],
                 some (pre ++ dictSet c "modules"
                   (.arr (mpre ++ .obj (dictSet md "seances"
                     (.arr (spre ++ .obj (dictUpdate sd patch) :: ssuf))) :: msuf)) :: suf)⟩) ∧
        (∀ k, dictGet (dictUpdate sd patch) k =
          match dictGet patch k with
          | some v => some v
          | none => dictGet sd k))) := by
  constructor
  · intro hall
    obtain ⟨r, hr⟩ := findCourseSplit_total cours cid (wfCours_ids hwf)
    cases r with
    | some trip =>
      obtain ⟨pre, c, suf⟩ := trip
      obtain ⟨hseq, hcid, _⟩ := findCourseSplit_spec cours cid pre c suf hr
      have : c ∈ cours := by
        rw [hseq]; exact List.mem_append_right pre (List.mem_cons_self c suf)
      exact absurd hcid (hall c this)
    | none => simp [courses_course_id_sessions_session_id_put, hr]
  · intro pre c suf hsplit
    obtain ⟨hseq, hcid, _⟩ := findCourseSplit_spec cours cid pre c suf hsplit
    have hcm : c ∈ cours := by
      rw [hseq]; exact List.mem_append_right pre (List.mem_cons_self c suf)
    have hcwf : wfCourse c = true := wfCourse_of_mem hwf hcm
    have hne : c.isEmpty = false := dictGet_isSome_ne_nil hcid
    constructor
    · intro hspec
      obtain ⟨r0, hfr⟩ := find_session_by_id_total hcwf sid
      cases r0 with
      | some trip =>
        exfalso
        obtain ⟨mi, si, sd⟩ := trip
        obtain ⟨_, hfm⟩ := find_session_by_id_some hfr
        obtain ⟨mpre, md, msuf, hmseq, _, _, _, hfs⟩ :=
          findSessionInModules_some (modulesOf c) sid 0 mi si sd hfm
        obtain ⟨spre, ssuf, hsseq, _, _, hid⟩ :=
          findSessionInSeances_some (seancesOf (.obj md)) sid 0 si sd hfs
        rw [specSessionIdExists_true_of hmseq hsseq hid] at hspec
        exact absurd hspec (by simp)
      | none =>
        simp [courses_course_id_sessions_session_id_put, hsplit, hne, hfr]
    · intro mi si sd hfsome
      obtain ⟨hpres, hfm⟩ := find_session_by_id_some hfsome
      obtain ⟨mpre, md, msuf, hmseq, hmi, hmall, hsea, hfs⟩ :=
        findSessionInModules_some (modulesOf c) sid 0 mi si sd hfm
      obtain ⟨spre, ssuf, hsseq, hsi, hsall, hid⟩ :=
        findSessionInSeances_some (seancesOf (.obj md)) sid 0 si sd hfs
      have hmi2 : mi = mpre.length := by omega
      have hsi2 : si = spre.length := by omega
      have hsdne : sd.isEmpty = false := dictGet_isSome_ne_nil hid
      have hpres2 : dictGet c "modules" = some (.arr (mpre ++ .obj md :: msuf)) := by
        rw [hpres, hmseq]
      have hsea2 : dictGet md "seances" = some (.arr (spre ++ .obj sd :: ssuf)) := by
        rw [hsea, hsseq]
      have hseteq : setSessionAt c mi si (dictUpdate sd patch) =
          dictSet c "modules"
            (.arr (mpre ++ .obj (dictSet md "seances"
              (.arr (spre ++ .obj (dictUpdate sd patch) :: ssuf))) :: msuf)) := by
        rw [hmi2, hsi2]
        simp [setSessionAt, hpres2, hsea2, listNth_split mpre (JVal.obj md) msuf,
          set_split spre (JVal.obj sd) (JVal.obj (dictUpdate sd patch)) ssuf,
          set_split mpre (JVal.obj md)
            (JVal.obj (dictSet md "seances"
              (.arr (spre ++ .obj (dictUpdate sd patch) :: ssuf)))) msuf]
      have hres : courses_course_id_sessions_session_id_put cours cid sid patch =
          .ok ⟨200, .obj [("message", .str "Séance mise à jour avec succès."),
                          ("seance", .obj (dictUpdate sd patch))],
               some (pre ++ setSessionAt c mi si (dictUpdate sd patch) :: suf)⟩ := by
        simp [courses_course_id_sessions_session_id_put, hsplit, hne, hfsome, hsdne]
      rw [hseteq] at hres
      exact ⟨⟨mpre, md, msuf, spre, ssuf, hpres2, hmi2, hmall, hsea2, hsi2, hsall, hid, hres⟩,
        fun k => dictGet_dictUpdate sd patch k hnd⟩

theorem sessions_session_put_spec_witness :
    courses_course_id_sessions_session_id_put [[("id", JVal.int 1)]] (JVal.int 9)
        (JVal.int 7) [("titre", JVal.str "Z")] =
      .ok ⟨404, COURSE_NOT_FOUND, none⟩ ∧
    courses_course_id_sessions_session_id_put
        [[("id", JVal.int 1),
          ("modules", JVal.arr
            [.obj [("id", .str "m1"), ("seances", .arr [.obj [("id", JVal.int 5)]])],
             .obj [("id", .str "m2"), ("seances", .arr [.obj [("id", JVal.int 7),
               ("titre", .str "old")]])]])]]
        (JVal.int 1) (JVal.int 99) [("titre", JVal.str "Z")] =
      .ok ⟨404, SESSION_NOT_FOUND, none⟩ ∧
    courses_course_id_sessions_session_id_put
        [[("id", JVal.int 1),
          ("modules", JVal.arr
            [.obj [("id", .str "m1"), ("seances", .arr [.obj [("id", JVal.int 5)]])],
             .obj [("id", .str "m2"), ("seances", .arr [.obj [("id", JVal.int 7),
               ("titre", .str "old")]])]])]]
        (JVal.int 1) (JVal.int 7) [("titre", JVal.str "Z")] =
      .ok ⟨200, .obj [("message", .str "Séance mise à jour avec succès."),
                      ("seance", .obj [("id", JVal.int 7), ("titre", .str "Z")])],
           some [[("id", JVal.int 1),
                  ("modules", JVal.arr
                    [.obj [("id", .str "m1"),
                       ("seances", .arr [.obj [("id", JVal.int 5)]])],
                     .obj [("id", .str "m2"),
                       ("seances", .arr [.obj [("id", JVal.int 7),
                         ("titre", .str "Z")]])]])]]⟩ :=
  ⟨(sessions_session_put_spec [[("id", JVal.int 1)]] (JVal.int 9) (JVal.int 7)
      [("titre", JVal.str "Z")] (by decide) (by decide)).1 (by decide),
   ((sessions_session_put_spec
      [[("id", JVal.int 1),
        ("modules", JVal.arr
          [.obj [("id", .str "m1"), ("seances", .arr [.obj [("id", JVal.int 5)]])],
           .obj [("id", .str "m2"), ("seances", .arr [.obj [("id", JVal.int 7),
             ("titre", .str "old")]])]])]]
      (JVal.int 1) (JVal.int 99) [("titre", JVal.str "Z")] (by decide) (by decide)).2
      []
      [("id", JVal.int 1),
       ("modules", JVal.arr
         [.obj [("id", .str "m1"), ("seances", .arr [.obj [("id", JVal.int 5)]])],
          .obj [("id", .str "m2"), ("seances", .arr [.obj [("id", JVal.int 7),
            ("titre", .str "old")]])]])]
      [] (by rfl)).1 (by decide),
   by rfl⟩

/-- Claim C10: frame property of the four mutating operations. Whenever
update course, delete course, create session or update session persists a
document (`saved = some d`), the original course list splits as
`pre ++ c :: suf` around the first course matching the operation's course
id, and the persisted list is `pre ++ c' :: suf` (for delete,
`pre ++ suf`): every course other than the matched one is unchanged,
byte for byte, and the relative order of the untouched courses is
preserved. No well-formedness hypotheses are needed: a run that raises or
returns 404/400 saves nothing. -/
theorem mutations_frame_spec (cours : List Dict) (cid sid : JVal) (body : Dict) :
    (∀ r d, courses_course_id_put cours cid body = .ok r → r.saved = some d →
      ∃ pre c suf c', cours = pre ++ c :: suf ∧ dictGet c "id" = some cid ∧
        d = pre ++ c' :: suf) ∧
    (∀ r d, courses_course_id_delete cours cid = .ok r → r.saved = some d →
      ∃ pre c suf, cours = pre ++ c :: suf ∧ dictGet c "id" = some cid ∧
        d = pre ++ suf) ∧
    (∀ r d, courses_course_id_sessions_post cours cid body = .ok r → r.saved = some d →
      ∃ pre c suf c', cours = pre ++ c :: suf ∧ dictGet c "id" = some cid ∧
        d = pre ++ c' :: suf) ∧
    (∀ r d, courses_course_id_sessions_session_id_put cours cid sid body = .ok r →
      r.saved = some d →
      ∃ pre c suf c', cours = pre ++ c :: suf ∧ dictGet c "id" = some cid ∧
        d = pre ++ c' :: suf) := by
  refine ⟨?_, ?_, ?_, ?_⟩
  · intro r d hok hsaved
    cases hsp : findCourseSplit cours cid with
    | error e =>
      rw [show courses_course_id_put cours cid body = .error e by
        simp [courses_course_id_put, hsp]] at hok
      exact absurd hok (by simp)
    | ok o =>
      cases o with
      | none =>
        rw [show courses_course_id_put cours cid body = .ok ⟨404, COURSE_NOT_FOUND, none⟩ by
          simp [courses_course_id_put, hsp]] at hok
        simp only [Except.ok.injEq] at hok
        rw [← hok] at hsaved
        exact absurd hsaved (by simp)
      | some trip =>
        obtain ⟨pre, c, suf⟩ := trip
        obtain ⟨hseq, hcid, _⟩ := findCourseSplit_spec cours cid pre c suf hsp
        have hne : c.isEmpty = false := dictGet_isSome_ne_nil hcid
        rw [show courses_course_id_put cours cid body =
            .ok ⟨200, .obj [("message", .str "Cours mis à jour avec succès."),
                            ("cours", .obj (dictUpdate c body))],
                 some (pre ++ dictUpdate c body :: suf)⟩ by
          simp [courses_course_id_put, hsp, hne]] at hok
        simp only [Except.ok.injEq] at hok
        rw [← hok] at hsaved
        exact ⟨pre, c, suf, dictUpdate c body, hseq, hcid, (Option.some.inj hsaved).symm⟩
  · intro r d hok hsaved
    cases hsp : findCourseSplit cours cid with
    | error e =>
      rw [show courses_course_id_delete cours cid = .error e by
        simp [courses_course_id_delete, hsp]] at hok
      exact absurd hok (by simp)
    | ok o =>
      cases o with
      | none =>
        rw [show courses_course_id_delete cours cid = .ok ⟨404, COURSE_NOT_FOUND, none⟩ by
          simp [courses_course_id_delete, hsp]] at hok
        simp only [Except.ok.injEq] at hok
        rw [← hok] at hsaved
        exact absurd hsaved (by simp)
      | some trip =>
        obtain ⟨pre, c, suf⟩ := trip
        obtain ⟨hseq, hcid, hpre⟩ := findCourseSplit_spec cours cid pre c suf hsp
        have hne : c.isEmpty = false := dictGet_isSome_ne_nil hcid
        have hpne : ∀ p ∈ pre, p ≠ c := by
          intro p hp hpc
          obtain ⟨v, hv, hvt⟩ := hpre p hp
          rw [hpc, hcid] at hv
          exact hvt (Option.some.inj hv).symm
        have hrem : pyRemoveFirst cours c = .ok (pre ++ suf) := by
          rw [hseq]; exact pyRemoveFirst_split pre suf c hpne
        rw [show courses_course_id_delete cours cid =
            .ok ⟨200, .obj [("message", .str "Cours supprimé avec succès.")],
                 some (pre ++ suf)⟩ by
          simp [courses_course_id_delete, hsp, hne, hrem]] at hok
        simp only [Except.ok.injEq] at hok
        rw [← hok] at hsaved
        exact ⟨pre, c, suf, hseq, hcid, (Option.some.inj hsaved).symm⟩
  · intro r d hok hsaved
    cases hsp : findCourseSplit cours cid with
    | error e =>
      rw [show courses_course_id_sessions_post cours cid body = .error e by
        simp [courses_course_id_sessions_post, hsp]] at hok
      exact absurd hok (by simp)
    | ok o =>
      cases o with
      | none =>
        rw [show courses_course_id_sessions_post cours cid body =
            .ok ⟨404, COURSE_NOT_FOUND, none⟩ by
          simp [courses_course_id_sessions_post, hsp]] at hok
        simp only [Except.ok.injEq] at hok
        rw [← hok] at hsaved
        exact absurd hsaved (by simp)
      | some trip =>
        obtain ⟨pre, c, suf⟩ := trip
        obtain ⟨hseq, hcid, _⟩ := findCourseSplit_spec cours cid pre c suf hsp
        have hne : c.isEmpty = false := dictGet_isSome_ne_nil hcid
        cases hgm : getItem c "modules" with
        | error e =>
          rw [show courses_course_id_sessions_post cours cid body = .error e by
            simp [courses_course_id_sessions_post, hsp, hne, hgm]] at hok
          exact absurd hok (by simp)
        | ok mv =>
          cases hit : iterAsList mv with
          | error e =>
            rw [show courses_course_id_sessions_post cours cid body = .error e by
              simp [courses_course_id_sessions_post, hsp, hne, hgm, hit]] at hok
            exact absurd hok (by simp)
          | ok modules =>
            cases hcf : anyConflict c body modules with
            | error e =>
              rw [show courses_course_id_sessions_post cours cid body = .error e by
                simp [courses_course_id_sessions_post, hsp, hne, hgm, hit, hcf]] at hok
              exact absurd hok (by simp)
            | ok b =>
              cases b with
              | true =>
                rw [show courses_course_id_sessions_post cours cid body =
                    .ok ⟨400, SESSION_ALREADY_EXISTS, none⟩ by
                  simp [courses_course_id_sessions_post, hsp, hne, hgm, hit, hcf]] at hok
                simp only [Except.ok.injEq] at hok
                rw [← hok] at hsaved
                exact absurd hsaved (by simp)
              | false =>
                cases happ : appendToFirstModule
                    (if truthyGet c "modules" then c
                     else dictSet c "modules" (.arr [.obj freshModule])) body with
                | error e =>
                  rw [show courses_course_id_sessions_post cours cid body = .error e by
                    simp [courses_course_id_sessions_post, hsp, hne, hgm, hit, hcf, happ]] at hok
                  exact absurd hok (by simp)
                | ok c2 =>
                  rw [show courses_course_id_sessions_post cours cid body =
                      .ok ⟨201, .obj [("message", .str "Séance créée avec succès."),
                                      ("seance", .obj body)],
                           some (pre ++ c2 :: suf)⟩ by
                    simp [courses_course_id_sessions_post, hsp, hne, hgm, hit, hcf, happ]] at hok
                  simp only [Except.ok.injEq] at hok
                  rw [← hok] at hsaved
                  exact ⟨pre, c, suf, c2, hseq, hcid, (Option.some.inj hsaved).symm⟩
  · intro r d hok hsaved
    cases hsp : findCourseSplit cours cid with
    | error e =>
      rw [show courses_course_id_sessions_session_id_put cours cid sid body = .error e by
        simp [courses_course_id_sessions_session_id_put, hsp]] at hok
      exact absurd hok (by simp)
    | ok o =>
      cases o with
      | none =>
        rw [show courses_course_id_sessions_session_id_put cours cid sid body =
            .ok ⟨404, COURSE_NOT_FOUND, none⟩ by
          simp [courses_course_id_sessions_session_id_put, hsp]] at hok
        simp only [Except.ok.injEq] at hok
        rw [← hok] at hsaved
        exact absurd hsaved (by simp)
      | some trip =>
        obtain ⟨pre, c, suf⟩ := trip
        obtain ⟨hseq, hcid, _⟩ := findCourseSplit_spec cours cid pre c suf hsp
        have hne : c.isEmpty = false := dictGet_isSome_ne_nil hcid
        cases hfs : find_session_by_id c sid with
        | error e =>
          rw [show courses_course_id_sessions_session_id_put cours cid sid body = .error e by
            simp [courses_course_id_sessions_session_id_put, hsp, hne, hfs]] at hok
          exact absurd hok (by simp)
        | ok o2 =>
          cases o2 with
          | none =>
            rw [show courses_course_id_sessions_session_id_put cours cid sid body =
                .ok ⟨404, SESSION_NOT_FOUND, none⟩ by
              simp [courses_course_id_sessions_session_id_put, hsp, hne, hfs]] at hok
            simp only [Except.ok.injEq] at hok
            rw [← hok] at hsaved
            exact absurd hsaved (by simp)
          | some trip2 =>
            obtain ⟨mi, si, sd⟩ := trip2
            cases hsde : sd.isEmpty with
            | true =>
              rw [show courses_course_id_sessions_session_id_put cours cid sid body =
                  .ok ⟨404, SESSION_NOT_FOUND, none⟩ by
                simp [courses_course_id_sessions_session_id_put, hsp, hne, hfs, hsde]] at hok
              simp only [Except.ok.injEq] at hok
              rw [← hok] at hsaved
              exact absurd hsaved (by simp)
            | false =>
              rw [show courses_course_id_sessions_session_id_put cours cid sid body =
                  .ok ⟨200, .obj [("message", .str "Séance mise à jour avec succès."),
                                  ("seance", .obj (dictUpdate sd body))],
                       some (pre ++ setSessionAt c mi si (dictUpdate sd body) :: suf)⟩ by
                simp [courses_course_id_sessions_session_id_put, hsp, hne, hfs, hsde]] at hok
              simp only [Except.ok.injEq] at hok
              rw [← hok] at hsaved
              exact ⟨pre, c, suf, setSessionAt c mi si (dictUpdate sd body), hseq, hcid,
                (Option.some.inj hsaved).symm⟩

theorem mutations_frame_spec_witness :
    (∃ pre c suf, ([[("id", JVal.int 1)], [("id", JVal.int 2)], [("id", JVal.int 3)]] :
        List Dict) = pre ++ c :: suf ∧ dictGet c "id" = some (JVal.int 2) ∧
      ([[("id", JVal.int 1)], [("id", JVal.int 3)]] : List Dict) = pre ++ suf) := by
  have h := (mutations_frame_spec [[("id", JVal.int 1)], [("id", JVal.int 2)],
    [("id", JVal.int 3)]] (JVal.int 2) (JVal.int 7) []).2.1
    ⟨200, .obj [("message", .str "Cours supprimé avec succès.")],
     some [[("id", JVal.int 1)], [("id", JVal.int 3)]]⟩
    [[("id", JVal.int 1)], [("id", JVal.int 3)]] (by rfl) rfl
  exact h
